import Mathlib

/-!
# ATM state machine (`atm_machine/main.go`)

A shallow embedding of the ATM session of `atm_machine/main.go`: the `Account`
records, the `ATMContext` and its three concrete states, the constructor
`NewATMContext` and the two verbs `Authenticate` and `WithdrawMoney`.

Modelling conventions.

* Go's `*Account` is an address (`Nat`) or `nil`; the `Account` objects live in
  a heap `Nat → Account`.  Go has no dangling pointers, so every address
  denotes an object.
* Go's `map[string]*Account` is a function from keys to `Option AccountPtr`:
  `none` means that the key is absent (`exists == false`).
* In the session model `float64` amounts are taken as exact numbers (`ℚ`), so
  rounding, infinities and NaN have no value there.  The two comparisons of
  `WithdrawState.WithdrawMoney` are modelled a second time on `Float64`
  operands, which include NaN and the infinities.
* A Go `error` is `nil` (`none`) or `errors.New msg` (`some msg`).
* Dereferencing `nil` panics; a call that panics has outcome `none`.
* The text written by `fmt.Println` / `fmt.Printf` is not modelled.
-/

namespace ATM

/-- Go `type Account struct`. -/
structure Account where
  AccountNumber : String
  Pin : String
  Balance : ℚ
deriving DecidableEq

/-- Go `*Account`: `none` is `nil`, `some a` is the address `a`. -/
abbrev AccountPtr := Option Nat

/-- The concrete types implementing the interface `ATMState`.  Each Go value
holds one field, `ATM`, the context that installed it. -/
inductive ATMState where
  | IdleState
  | AuthenticatedState
  | WithdrawState
deriving DecidableEq, Repr

/-- Go `type ATMContext struct`. -/
structure ATMContext where
  CurrentState : ATMState
  Accounts : String → Option AccountPtr
  AvailableCash : ℚ
  ActiveAccount : AccountPtr

/-- The program state a method call works on: the context and the `Account`
objects that its pointers refer to. -/
structure Session where
  atm : ATMContext
  heap : Nat → Account

/-- Go `error`: `none` is `nil`, `some msg` is `errors.New(msg)`. -/
abbrev GoError := Option String

/-- What a method call yields: `some (err, s)` when it returns `err` and leaves
the session `s`, `none` when it panics on a nil pointer dereference. -/
abbrev Outcome := Option (GoError × Session)

/-- The method `func (atm *ATMContext) setState(state ATMState)`. -/
def ATMContext.setState (atm : ATMContext) (state : ATMState) : ATMContext :=
  { atm with CurrentState := state }

/-- The statement `accountMap[key] = acnt`. -/
def mapInsert (m : String → Option AccountPtr) (key : String) (acnt : AccountPtr) :
    String → Option AccountPtr :=
  fun k => if k = key then some acnt else m k

/-- The loop `for _, acnt := range accounts { accountMap[acnt.AccountNumber] = acnt }`
of `NewATMContext`, started on the map `accountMap`.  Reading
`acnt.AccountNumber` of a nil entry panics. -/
def fillAccountMap (heap : Nat → Account) :
    (String → Option AccountPtr) → List AccountPtr → Option (String → Option AccountPtr)
  | accountMap, [] => some accountMap
  | _, none :: _ => none
  | accountMap, some a :: rest =>
      fillAccountMap heap (mapInsert accountMap (heap a).AccountNumber (some a)) rest

/-- The constructor `func NewATMContext(initialCash float64, accounts []*Account) *ATMContext`.
`ActiveAccount` keeps its zero value `nil`; `CurrentState` is installed by the
`setState` call before the context is returned. -/
def NewATMContext (heap : Nat → Account) (initialCash : ℚ) (accounts : List AccountPtr) :
    Option Session :=
  match fillAccountMap heap (fun _ => none) accounts with
  | none => none
  | some accountMap =>
      let atm : ATMContext :=
        { CurrentState := ATMState.IdleState
          Accounts := accountMap
          AvailableCash := initialCash
          ActiveAccount := none }
      some { atm := atm.setState ATMState.IdleState, heap := heap }

/-- The method `func (s *IdleState) Authenticate(accountNum, pin string) error`. -/
def IdleState.Authenticate (s : Session) (accountNum pin : String) : Outcome :=
  match s.atm.Accounts accountNum with
  | none => some (some "account number doesn't exist", s)
  | some none => none
  | some (some a) =>
      if (s.heap a).Pin ≠ pin then
        some (some "PIN is not matching", s)
      else
        let atm := { s.atm with ActiveAccount := some a }
        some (none, { s with atm := atm.setState ATMState.AuthenticatedState })

/-- The method `func (s *IdleState) WithdrawMoney(amount float64) error`. -/
def IdleState.WithdrawMoney (s : Session) (_amount : ℚ) : Outcome :=
  some (some "please authenticate first", s)

/-- The method `func (s *AuthenticatedState) Authenticate(accountNum, pin string) error`. -/
def AuthenticatedState.Authenticate (s : Session) (_accountNum _pin : String) : Outcome :=
  some (some "already authenticated", s)

/-- The method `func (s *WithdrawState) Authenticate(accountNum, pin string) error`. -/
def WithdrawState.Authenticate (s : Session) (_accountNum _pin : String) : Outcome :=
  some (some "can't authenticate during a transaction", s)

/-- The statement `account.Balance -= amount` for the object at address `a`. -/
def debit (heap : Nat → Account) (a : Nat) (amount : ℚ) : Nat → Account :=
  fun b => if b = a then { heap a with Balance := (heap a).Balance - amount } else heap b

/-- The method `func (s *WithdrawState) WithdrawMoney(amount float64) error`.
The machine-cash test comes before the first dereference of `account`. -/
def WithdrawState.WithdrawMoney (s : Session) (amount : ℚ) : Outcome :=
  let account := s.atm.ActiveAccount
  if s.atm.AvailableCash < amount then
    some (some "atm machine ran out of money... doesn't have sufficient cash", s)
  else
    match account with
    | none => none
    | some a =>
        if (s.heap a).Balance < amount then
          some (some "insufficient account balance", s)
        else
          some (none,
            { atm := { s.atm with AvailableCash := s.atm.AvailableCash - amount }
              heap := debit s.heap a amount })

/-- Rank of a state for the termination of the dynamic dispatch below: only
`AuthenticatedState.WithdrawMoney` calls back into the dispatch. -/
def dispatchRank : ATMState → Nat
  | ATMState.AuthenticatedState => 2
  | _ => 0

mutual
/-- The interface call `state.WithdrawMoney(amount)` on the state installed in
the session: dynamic dispatch on the concrete type. -/
def ATMState.WithdrawMoney (s : Session) (amount : ℚ) : Outcome :=
  match _h : s.atm.CurrentState with
  | ATMState.IdleState => IdleState.WithdrawMoney s amount
  | ATMState.AuthenticatedState => AuthenticatedState.WithdrawMoney s amount
  | ATMState.WithdrawState => WithdrawState.WithdrawMoney s amount
termination_by dispatchRank s.atm.CurrentState
decreasing_by
  simp [_h, dispatchRank]
/-- The method `func (s *AuthenticatedState) WithdrawMoney(amount float64) error`:
install `WithdrawState`, then call `s.ATM.CurrentState.WithdrawMoney(amount)`. -/
def AuthenticatedState.WithdrawMoney (s : Session) (amount : ℚ) : Outcome :=
  let s1 : Session := { s with atm := s.atm.setState ATMState.WithdrawState }
  ATMState.WithdrawMoney s1 amount
termination_by 1
decreasing_by
  simp [dispatchRank, ATMContext.setState]
end

/-- The interface call `state.Authenticate(accountNum, pin)` on the state
installed in the session. -/
def ATMState.Authenticate (s : Session) (accountNum pin : String) : Outcome :=
  match s.atm.CurrentState with
  | ATMState.IdleState => IdleState.Authenticate s accountNum pin
  | ATMState.AuthenticatedState => AuthenticatedState.Authenticate s accountNum pin
  | ATMState.WithdrawState => WithdrawState.Authenticate s accountNum pin

/-- The method `func (atm *ATMContext) Authenticate(accountNumber, pin string) error`. -/
def ATMContext.Authenticate (s : Session) (accountNumber pin : String) : Outcome :=
  ATMState.Authenticate s accountNumber pin

/-- The method `func (atm *ATMContext) WithdrawMoney(amnt float64) error`. -/
def ATMContext.WithdrawMoney (s : Session) (amnt : ℚ) : Outcome :=
  ATMState.WithdrawMoney s amnt

/-- One call of a public verb of the context, with its arguments. -/
inductive Call where
  | Authenticate (accountNumber pin : String)
  | WithdrawMoney (amnt : ℚ)

/-- Perform one call. -/
def Call.run (s : Session) : Call → Outcome
  | Call.Authenticate accountNumber pin => ATMContext.Authenticate s accountNumber pin
  | Call.WithdrawMoney amnt => ATMContext.WithdrawMoney s amnt

/-- Perform a finite sequence of calls one after the other, whatever each of
them returns; `none` when one of them panics. -/
def runCalls : Session → List Call → Option Session
  | s, [] => some s
  | s, c :: cs =>
      match c.run s with
      | none => none
      | some (_, s1) => runCalls s1 cs

/-- The `error` value a call returned, when it returned at all. -/
def returnedError (o : Outcome) : Option GoError :=
  o.map Prod.fst

/-- The heap of `main`: the two `Account` literals of `accountsList`, at
addresses 0 and 1. -/
def mainHeap : Nat → Account
  | 0 => { AccountNumber := "81975433120", Pin := "2311", Balance := 20000 }
  | _ => { AccountNumber := "51253524113", Pin := "1234", Balance := 50000 }

/-- The slice `accountsList` of `main`. -/
def accountsList : List AccountPtr := [some 0, some 1]

/-- The map that `NewATMContext` builds from `accountsList`. -/
def mainAccounts : String → Option AccountPtr :=
  mapInsert (mapInsert (fun _ => none) "81975433120" (some 0)) "51253524113" (some 1)

/-- The session of `main` with the given state, cash, active account and heap;
its map is always `mainAccounts`. -/
def mainSession (state : ATMState) (cash : ℚ) (active : AccountPtr) (heap : Nat → Account) :
    Session :=
  { atm := { CurrentState := state, Accounts := mainAccounts, AvailableCash := cash,
             ActiveAccount := active }
    heap := heap }

/-- The account numbers of the listed accounts are pairwise distinct. -/
def DistinctNumbers (heap : Nat → Account) (accounts : List AccountPtr) : Prop :=
  accounts.Pairwise fun p q =>
    ∀ x y, p = some x → q = some y → (heap x).AccountNumber ≠ (heap y).AccountNumber

/-- A session agrees with the account list it was built from: every map entry
is a listed, non-nil account stored under its own number, the active account
is the map entry of its number, and `ActiveAccount` is nil exactly in
`IdleState`. -/
def Consistent (accounts : List AccountPtr) (s : Session) : Prop :=
  (∀ k p, s.atm.Accounts k = some p →
    ∃ a, p = some a ∧ some a ∈ accounts ∧ (s.heap a).AccountNumber = k) ∧
  (∀ a, s.atm.ActiveAccount = some a →
    s.atm.Accounts (s.heap a).AccountNumber = some (some a)) ∧
  (s.atm.ActiveAccount = none ↔ s.atm.CurrentState = ATMState.IdleState)

/-- Machine cash and the balances of the listed accounts are not negative. -/
def NonNegative (accounts : List AccountPtr) (s : Session) : Prop :=
  0 ≤ s.atm.AvailableCash ∧ ∀ a, some a ∈ accounts → 0 ≤ (s.heap a).Balance

/-- The one-phase withdrawal the two-phase call is compared with: set the state
of the session to `WithdrawState`, then run the body of the `WithdrawState`
method on it. -/
def setStateThenWithdraw (s : Session) (amount : ℚ) : Outcome :=
  WithdrawState.WithdrawMoney { s with atm := s.atm.setState ATMState.WithdrawState } amount

/-- The amount a returned call took out: the argument of a `WithdrawMoney` call
that returned `nil`, zero for every other call. -/
def withdrawnBy : Call → GoError → ℚ
  | Call.WithdrawMoney amnt, none => amnt
  | _, _ => 0

/-- The sum of the amounts of the `WithdrawMoney` calls of a sequence that
returned `nil`, the sequence being run from the session `s`. -/
def withdrawnTotal : Session → List Call → ℚ
  | _, [] => 0
  | s, c :: cs =>
      match c.run s with
      | none => 0
      | some (e, s1) => withdrawnBy c e + withdrawnTotal s1 cs

/-- The sum of the balances of the accounts of a list, read in the heap. -/
def totalBalance (heap : Nat → Account) : List AccountPtr → ℚ
  | [] => 0
  | none :: rest => totalBalance heap rest
  | some a :: rest => (heap a).Balance + totalBalance heap rest

/-- A heap with two accounts of the same number and different pins, at
addresses 0 and 1, and a third account at the other addresses. -/
def twinHeap : Nat → Account
  | 0 => { AccountNumber := "70000000001", Pin := "1111", Balance := 100 }
  | 1 => { AccountNumber := "70000000001", Pin := "2222", Balance := 200 }
  | _ => { AccountNumber := "70000000002", Pin := "3333", Balance := 300 }

/-- A `float64` as the comparisons of the source see it: NaN, an infinity, or a
finite value, taken as the exact number it denotes (the two zeros are one
value: they compare equal). -/
inductive Float64 where
  | NaN
  | negInf
  | finite (q : ℚ)
  | posInf
deriving DecidableEq

/-- Go `x < y` on `float64`: false as soon as one operand is NaN. -/
def Float64.lt : Float64 → Float64 → Bool
  | Float64.NaN, _ => false
  | _, Float64.NaN => false
  | Float64.negInf, Float64.negInf => false
  | Float64.negInf, _ => true
  | Float64.finite _, Float64.negInf => false
  | Float64.finite x, Float64.finite y => decide (x < y)
  | Float64.finite _, Float64.posInf => true
  | Float64.posInf, _ => false

/-- Go `x >= y` on `float64`: false as soon as one operand is NaN. -/
def Float64.ge : Float64 → Float64 → Bool
  | Float64.NaN, _ => false
  | _, Float64.NaN => false
  | _, Float64.negInf => true
  | Float64.negInf, _ => false
  | Float64.posInf, _ => true
  | Float64.finite x, Float64.finite y => decide (y ≤ x)
  | Float64.finite _, Float64.posInf => false

/-- The two tests of `func (s *WithdrawState) WithdrawMoney(amount float64) error`
on `float64` operands: the `error` the method returns when `s.ATM.AvailableCash`,
the `Balance` of the (non-nil) active account and `amount` have the given
values; `none` is the `nil` returned after the debit. -/
def WithdrawState.WithdrawMoney64 (availableCash balance amount : Float64) : GoError :=
  if Float64.lt availableCash amount then
    some "atm machine ran out of money... doesn't have sufficient cash"
  else if Float64.lt balance amount then
    some "insufficient account balance"
  else
    none

/-! ## Unfolding the dynamic dispatch -/

theorem dispatch_idle (s : Session) (amount : ℚ)
    (h : s.atm.CurrentState = ATMState.IdleState) :
    ATMState.WithdrawMoney s amount = IdleState.WithdrawMoney s amount := by
  rw [ATMState.WithdrawMoney]
  split <;> simp_all

theorem dispatch_withdraw (s : Session) (amount : ℚ)
    (h : s.atm.CurrentState = ATMState.WithdrawState) :
    ATMState.WithdrawMoney s amount = WithdrawState.WithdrawMoney s amount := by
  rw [ATMState.WithdrawMoney]
  split <;> simp_all

theorem authenticated_withdraw_eq (s : Session) (amount : ℚ) :
    AuthenticatedState.WithdrawMoney s amount =
      WithdrawState.WithdrawMoney
        { s with atm := s.atm.setState ATMState.WithdrawState } amount := by
  rw [AuthenticatedState.WithdrawMoney]
  exact dispatch_withdraw _ _ rfl

theorem dispatch_authenticated (s : Session) (amount : ℚ)
    (h : s.atm.CurrentState = ATMState.AuthenticatedState) :
    ATMState.WithdrawMoney s amount =
      WithdrawState.WithdrawMoney
        { s with atm := s.atm.setState ATMState.WithdrawState } amount := by
  rw [ATMState.WithdrawMoney]
  split
  · simp_all
  · exact authenticated_withdraw_eq s amount
  · simp_all

theorem setState_self (s : Session) (st : ATMState) (h : s.atm.CurrentState = st) :
    ({ s with atm := s.atm.setState st } : Session) = s := by
  obtain ⟨⟨c, m, k, a⟩, hp⟩ := s
  simp only [ATMContext.setState] at h ⊢
  subst h
  rfl

/-- In the states `AuthenticatedState` and `WithdrawState` the public verb runs
the body of `WithdrawState.WithdrawMoney` on the session with `WithdrawState`
installed. -/
theorem withdrawMoney_of_not_idle (s : Session) (amnt : ℚ)
    (h : s.atm.CurrentState = ATMState.AuthenticatedState ∨
      s.atm.CurrentState = ATMState.WithdrawState) :
    ATMContext.WithdrawMoney s amnt =
      WithdrawState.WithdrawMoney
        { s with atm := s.atm.setState ATMState.WithdrawState } amnt := by
  rcases h with h | h
  · exact dispatch_authenticated s amnt h
  · rw [setState_self s _ h]
    exact dispatch_withdraw s amnt h

theorem withdrawMoney_of_idle (s : Session) (amnt : ℚ)
    (h : s.atm.CurrentState = ATMState.IdleState) :
    ATMContext.WithdrawMoney s amnt = some (some "please authenticate first", s) :=
  dispatch_idle s amnt h

/-- The three ways out of `WithdrawState.WithdrawMoney` when an account is active. -/
theorem withdrawState_cases (s : Session) (amount : ℚ) (a : Nat)
    (ha : s.atm.ActiveAccount = some a) :
    (s.atm.AvailableCash < amount ∧
      WithdrawState.WithdrawMoney s amount =
        some (some "atm machine ran out of money... doesn't have sufficient cash", s)) ∨
    (amount ≤ s.atm.AvailableCash ∧ (s.heap a).Balance < amount ∧
      WithdrawState.WithdrawMoney s amount = some (some "insufficient account balance", s)) ∨
    (amount ≤ s.atm.AvailableCash ∧ amount ≤ (s.heap a).Balance ∧
      WithdrawState.WithdrawMoney s amount =
        some (none,
          { atm := { s.atm with AvailableCash := s.atm.AvailableCash - amount }
            heap := debit s.heap a amount })) := by
  unfold WithdrawState.WithdrawMoney
  by_cases h1 : s.atm.AvailableCash < amount
  · left
    exact ⟨h1, by simp [h1]⟩
  · right
    by_cases h2 : (s.heap a).Balance < amount
    · left
      exact ⟨not_lt.mp h1, h2, by simp [h1, ha, h2]⟩
    · right
      exact ⟨not_lt.mp h1, not_lt.mp h2, by simp [h1, ha, h2]⟩

/-! ## Scenario of `main` -/

theorem newATMContext_main :
    NewATMContext mainHeap 50000 accountsList =
      some (mainSession ATMState.IdleState 50000 none mainHeap) :=
  rfl

theorem authenticate_main :
    ATMContext.Authenticate (mainSession ATMState.IdleState 50000 none mainHeap)
        "81975433120" "2311" =
      some (none, mainSession ATMState.AuthenticatedState 50000 (some 0) mainHeap) :=
  rfl

theorem withdraw_main_15000 :
    ATMContext.WithdrawMoney (mainSession ATMState.AuthenticatedState 50000 (some 0) mainHeap)
        15000 =
      some (none, mainSession ATMState.WithdrawState 35000 (some 0) (debit mainHeap 0 15000)) := by
  rw [withdrawMoney_of_not_idle _ _ (Or.inl rfl)]
  simp [WithdrawState.WithdrawMoney, ATMContext.setState, mainHeap, mainSession]
  norm_num

theorem withdraw_main_60000 :
    ATMContext.WithdrawMoney (mainSession ATMState.AuthenticatedState 50000 (some 0) mainHeap)
        60000 =
      some (some "atm machine ran out of money... doesn't have sufficient cash",
        mainSession ATMState.WithdrawState 50000 (some 0) mainHeap) := by
  rw [withdrawMoney_of_not_idle _ _ (Or.inl rfl)]
  simp [WithdrawState.WithdrawMoney, ATMContext.setState, mainSession]
  norm_num

theorem withdraw_main_30000 :
    ATMContext.WithdrawMoney (mainSession ATMState.AuthenticatedState 50000 (some 0) mainHeap)
        30000 =
      some (some "insufficient account balance",
        mainSession ATMState.WithdrawState 50000 (some 0) mainHeap) := by
  rw [withdrawMoney_of_not_idle _ _ (Or.inl rfl)]
  simp [WithdrawState.WithdrawMoney, ATMContext.setState, mainHeap, mainSession]
  norm_num

/-! ## Withdrawal: conservation and decision table -/

/-- C1: conservation law.  In state `AuthenticatedState` or `WithdrawState` with an
active account `a`, a `WithdrawMoney X` that returns `nil` leaves `AvailableCash`
and the balance of `a` each lowered by exactly `X`, every other account object
and the account map untouched.  Scenario B: on the session of `main`,
authenticating account 81975433120 and withdrawing 15000 succeeds and leaves cash
35000, that balance 5000 and account 51253524113 as it was. -/
theorem withdraw_conservation :
    (∀ (s s' : Session) (X : ℚ) (a : Nat),
      (s.atm.CurrentState = ATMState.AuthenticatedState ∨
        s.atm.CurrentState = ATMState.WithdrawState) →
      s.atm.ActiveAccount = some a →
      ATMContext.WithdrawMoney s X = some (none, s') →
        s'.atm.AvailableCash = s.atm.AvailableCash - X ∧
        (s'.heap a).Balance = (s.heap a).Balance - X ∧
        (∀ b, b ≠ a → s'.heap b = s.heap b) ∧
        s'.atm.Accounts = s.atm.Accounts ∧
        s'.atm.ActiveAccount = some a) ∧
    (NewATMContext mainHeap 50000 accountsList =
        some (mainSession ATMState.IdleState 50000 none mainHeap) ∧
      ATMContext.Authenticate (mainSession ATMState.IdleState 50000 none mainHeap)
          "81975433120" "2311" =
        some (none, mainSession ATMState.AuthenticatedState 50000 (some 0) mainHeap) ∧
      ATMContext.WithdrawMoney
          (mainSession ATMState.AuthenticatedState 50000 (some 0) mainHeap) 15000 =
        some (none,
          mainSession ATMState.WithdrawState 35000 (some 0) (debit mainHeap 0 15000)) ∧
      mainAccounts "81975433120" = some (some 0) ∧
      mainAccounts "51253524113" = some (some 1) ∧
      debit mainHeap 0 15000 0 =
        { AccountNumber := "81975433120", Pin := "2311", Balance := 5000 } ∧
      debit mainHeap 0 15000 1 =
        { AccountNumber := "51253524113", Pin := "1234", Balance := 50000 }) := by
  refine ⟨?_, newATMContext_main, authenticate_main, withdraw_main_15000, rfl, rfl, ?_, ?_⟩
  · intro s s' X a hst ha h
    rw [withdrawMoney_of_not_idle s X hst] at h
    rcases withdrawState_cases { s with atm := s.atm.setState ATMState.WithdrawState } X a ha
      with ⟨_, h1⟩ | ⟨_, _, h1⟩ | ⟨_, _, h1⟩
    · rw [h1] at h
      simp at h
    · rw [h1] at h
      simp at h
    · rw [h1] at h
      simp only [Option.some.injEq, Prod.mk.injEq, true_and] at h
      subst h
      refine ⟨rfl, by simp [debit], ?_, rfl, ha⟩
      intro b hb
      simp [debit, hb]
  · simp [debit, mainHeap]
    norm_num
  · simp [debit, mainHeap]

/-- Witness of C1 on the authenticated session of `main` and the amount 15000. -/
theorem withdraw_conservation_witness :
    (mainSession ATMState.WithdrawState 35000 (some 0) (debit mainHeap 0 15000)).atm.AvailableCash =
        (mainSession ATMState.AuthenticatedState 50000 (some 0) mainHeap).atm.AvailableCash
          - 15000 ∧
      (debit mainHeap 0 15000 0).Balance = (mainHeap 0).Balance - 15000 ∧
      (∀ b, b ≠ 0 → debit mainHeap 0 15000 b = mainHeap b) ∧
      mainAccounts = mainAccounts ∧
      (some 0 : AccountPtr) = some 0 :=
  withdraw_conservation.1
    (mainSession ATMState.AuthenticatedState 50000 (some 0) mainHeap)
    (mainSession ATMState.WithdrawState 35000 (some 0) (debit mainHeap 0 15000))
    15000 0 (Or.inl rfl) rfl withdraw_main_15000

/-- Decision table of `WithdrawMoney` in `WithdrawState` with an active account `a`
on exact amounts: the machine-cash error exactly when `AvailableCash < amount`,
the account-balance error exactly when `AvailableCash ≥ amount` and
`Balance < amount`, `nil` exactly when both are at least `amount`; when both are
too small the machine-cash error is the one returned. -/
theorem withdraw_decision_table_exact (s : Session) (amount : ℚ) (a : Nat)
    (hst : s.atm.CurrentState = ATMState.WithdrawState)
    (ha : s.atm.ActiveAccount = some a) :
    (returnedError (ATMContext.WithdrawMoney s amount) =
        some (some "atm machine ran out of money... doesn't have sufficient cash") ↔
      s.atm.AvailableCash < amount) ∧
    (returnedError (ATMContext.WithdrawMoney s amount) =
        some (some "insufficient account balance") ↔
      s.atm.AvailableCash ≥ amount ∧ (s.heap a).Balance < amount) ∧
    (returnedError (ATMContext.WithdrawMoney s amount) = some none ↔
      s.atm.AvailableCash ≥ amount ∧ (s.heap a).Balance ≥ amount) ∧
    (s.atm.AvailableCash < amount → (s.heap a).Balance < amount →
      returnedError (ATMContext.WithdrawMoney s amount) =
        some (some "atm machine ran out of money... doesn't have sufficient cash")) := by
  have hd : ATMContext.WithdrawMoney s amount = WithdrawState.WithdrawMoney s amount :=
    dispatch_withdraw s amount hst
  rw [hd]
  rcases withdrawState_cases s amount a ha with ⟨c, h1⟩ | ⟨c, b, h1⟩ | ⟨c, b, h1⟩
  · rw [h1]
    have c' : ¬ amount ≤ s.atm.AvailableCash := not_le.mpr c
    simp [returnedError, c, c']
  · rw [h1]
    have c' : ¬ s.atm.AvailableCash < amount := not_lt.mpr c
    simp [returnedError, c, c', b]
  · rw [h1]
    have c' : ¬ s.atm.AvailableCash < amount := not_lt.mpr c
    have b' : ¬ (s.heap a).Balance < amount := not_lt.mpr b
    simp [returnedError, c, c', b, b']

/-! ## The decision table on `float64` operands -/

theorem Float64.ge_eq_not_lt (x y : Float64) (hx : x ≠ Float64.NaN) (hy : y ≠ Float64.NaN) :
    Float64.ge x y = !Float64.lt x y := by
  cases x <;> cases y <;> simp_all [Float64.ge, Float64.lt]
  rename_i p q
  by_cases h : p < q
  · simp [h, not_le.mpr h]
  · simp [h, not_lt.mp h]

/-- On exact amounts the session model returns what the two `float64` tests
decide on the corresponding finite operands. -/
theorem withdraw_returns_withdrawMoney64 (s : Session) (amount : ℚ) (a : Nat)
    (hst : s.atm.CurrentState = ATMState.WithdrawState)
    (ha : s.atm.ActiveAccount = some a) :
    returnedError (ATMContext.WithdrawMoney s amount) =
      some (WithdrawState.WithdrawMoney64 (Float64.finite s.atm.AvailableCash)
        (Float64.finite (s.heap a).Balance) (Float64.finite amount)) := by
  have hd : ATMContext.WithdrawMoney s amount = WithdrawState.WithdrawMoney s amount :=
    dispatch_withdraw s amount hst
  rw [hd]
  rcases withdrawState_cases s amount a ha with ⟨c, h1⟩ | ⟨c, b, h1⟩ | ⟨c, b, h1⟩
  · rw [h1]
    simp [returnedError, WithdrawState.WithdrawMoney64, Float64.lt, c]
  · rw [h1]
    have c' : ¬ s.atm.AvailableCash < amount := not_lt.mpr c
    simp [returnedError, WithdrawState.WithdrawMoney64, Float64.lt, c', b]
  · rw [h1]
    have c' : ¬ s.atm.AvailableCash < amount := not_lt.mpr c
    have b' : ¬ (s.heap a).Balance < amount := not_lt.mpr b
    simp [returnedError, WithdrawState.WithdrawMoney64, Float64.lt, c', b']

/-- C2 as stated fails on NaN.  With amount NaN (cash 50000, balance 20000) both
tests are false, so the method debits and returns `nil` although neither
`AvailableCash >= amount` nor `Balance >= amount` holds; with `AvailableCash` NaN
(balance 50, amount 100) it returns "insufficient account balance" although
`AvailableCash >= amount` does not hold; with `Balance` NaN (cash 50000, amount
100) it returns `nil` although `Balance >= amount` does not hold. -/
theorem withdraw_decision_table_fails_on_nan :
    (WithdrawState.WithdrawMoney64 (Float64.finite 50000) (Float64.finite 20000)
        Float64.NaN = none ∧
      Float64.ge (Float64.finite 50000) Float64.NaN = false ∧
      Float64.ge (Float64.finite 20000) Float64.NaN = false) ∧
    (WithdrawState.WithdrawMoney64 Float64.NaN (Float64.finite 50) (Float64.finite 100) =
        some "insufficient account balance" ∧
      Float64.ge Float64.NaN (Float64.finite 100) = false) ∧
    (WithdrawState.WithdrawMoney64 (Float64.finite 50000) Float64.NaN (Float64.finite 100) =
        none ∧
      Float64.ge (Float64.finite 50000) (Float64.finite 100) = true ∧
      Float64.ge Float64.NaN (Float64.finite 100) = false) := by
  refine ⟨⟨?_, rfl, rfl⟩, ⟨?_, rfl⟩, ⟨?_, ?_, rfl⟩⟩
  · simp [WithdrawState.WithdrawMoney64, Float64.lt]
  · simp [WithdrawState.WithdrawMoney64, Float64.lt]
    norm_num
  · simp [WithdrawState.WithdrawMoney64, Float64.lt]
    norm_num
  · simp [Float64.ge]
    norm_num

/-- C2 amended: decision table of `WithdrawMoney` in `WithdrawState` with an active
account.  On all `float64` operands the machine-cash error is returned exactly
when `AvailableCash < amount`, and it is the error returned when both cash and
balance are below the amount.  When none of `AvailableCash`, `Balance` and
`amount` is NaN, the account-balance error is returned exactly when
`AvailableCash >= amount` and `Balance < amount`, and `nil` exactly when
`AvailableCash >= amount` and `Balance >= amount`.  On exact amounts the public
verb of a session in `WithdrawState` returns what these tests decide. -/
theorem withdraw_decision_table :
    (∀ cash bal amount : Float64,
      WithdrawState.WithdrawMoney64 cash bal amount =
          some "atm machine ran out of money... doesn't have sufficient cash" ↔
        Float64.lt cash amount = true) ∧
    (∀ cash bal amount : Float64,
      cash ≠ Float64.NaN → bal ≠ Float64.NaN → amount ≠ Float64.NaN →
        (WithdrawState.WithdrawMoney64 cash bal amount =
            some "insufficient account balance" ↔
          Float64.ge cash amount = true ∧ Float64.lt bal amount = true) ∧
        (WithdrawState.WithdrawMoney64 cash bal amount = none ↔
          Float64.ge cash amount = true ∧ Float64.ge bal amount = true)) ∧
    (∀ cash bal amount : Float64,
      Float64.lt cash amount = true → Float64.lt bal amount = true →
        WithdrawState.WithdrawMoney64 cash bal amount =
          some "atm machine ran out of money... doesn't have sufficient cash") ∧
    (∀ (s : Session) (amount : ℚ) (a : Nat),
      s.atm.CurrentState = ATMState.WithdrawState → s.atm.ActiveAccount = some a →
        returnedError (ATMContext.WithdrawMoney s amount) =
          some (WithdrawState.WithdrawMoney64 (Float64.finite s.atm.AvailableCash)
            (Float64.finite (s.heap a).Balance) (Float64.finite amount))) := by
  refine ⟨?_, ?_, ?_, withdraw_returns_withdrawMoney64⟩
  · intro cash bal amount
    unfold WithdrawState.WithdrawMoney64
    cases Float64.lt cash amount <;> cases Float64.lt bal amount <;> simp
  · intro cash bal amount hc hb ha
    rw [Float64.ge_eq_not_lt cash amount hc ha, Float64.ge_eq_not_lt bal amount hb ha]
    unfold WithdrawState.WithdrawMoney64
    cases Float64.lt cash amount <;> cases Float64.lt bal amount <;> simp
  · intro cash bal amount h1 _
    simp [WithdrawState.WithdrawMoney64, h1]

/-- Witness of C2 amended: cash 50000, balance 20000 and amount 30000 give the
account-balance error; on the session of `main` in `WithdrawState` the amount
15000 is paid out. -/
theorem withdraw_decision_table_witness :
    ((WithdrawState.WithdrawMoney64 (Float64.finite 50000) (Float64.finite 20000)
          (Float64.finite 30000) = some "insufficient account balance" ↔
        Float64.ge (Float64.finite 50000) (Float64.finite 30000) = true ∧
          Float64.lt (Float64.finite 20000) (Float64.finite 30000) = true) ∧
      (WithdrawState.WithdrawMoney64 (Float64.finite 50000) (Float64.finite 20000)
          (Float64.finite 30000) = none ↔
        Float64.ge (Float64.finite 50000) (Float64.finite 30000) = true ∧
          Float64.ge (Float64.finite 20000) (Float64.finite 30000) = true)) ∧
    returnedError (ATMContext.WithdrawMoney
        (mainSession ATMState.WithdrawState 50000 (some 0) mainHeap) 15000) =
      some (WithdrawState.WithdrawMoney64 (Float64.finite 50000)
        (Float64.finite (mainHeap 0).Balance) (Float64.finite 15000)) :=
  ⟨withdraw_decision_table.2.1 (Float64.finite 50000) (Float64.finite 20000)
      (Float64.finite 30000) (by simp) (by simp) (by simp),
   withdraw_decision_table.2.2.2
      (mainSession ATMState.WithdrawState 50000 (some 0) mainHeap) 15000 0 rfl rfl⟩

/-- C3 as stated fails: on the session of `main`, after the successful
`Authenticate`, `WithdrawMoney 60000` does not return "insufficient account
balance" (machine cash 50000 < 60000 is tested first). -/
theorem scenarioA_not_insufficient_balance :
    NewATMContext mainHeap 50000 accountsList =
        some (mainSession ATMState.IdleState 50000 none mainHeap) ∧
      ATMContext.Authenticate (mainSession ATMState.IdleState 50000 none mainHeap)
          "81975433120" "2311" =
        some (none, mainSession ATMState.AuthenticatedState 50000 (some 0) mainHeap) ∧
      returnedError (ATMContext.WithdrawMoney
          (mainSession ATMState.AuthenticatedState 50000 (some 0) mainHeap) 60000) ≠
        some (some "insufficient account balance") := by
  refine ⟨newATMContext_main, authenticate_main, ?_⟩
  rw [withdraw_main_60000]
  simp [returnedError]

/-- C3 amended: on the session of `main` (cash 50000, accounts 81975433120 / 2311 /
20000 and 51253524113 / 1234 / 50000), `Authenticate "81975433120" "2311"` returns
`nil` and the following `WithdrawMoney 60000` returns the machine-cash error "atm
machine ran out of money... doesn't have sufficient cash"; every account is
unchanged and `AvailableCash` is still 50000. -/
theorem scenarioA_insufficient_machine_cash :
    NewATMContext mainHeap 50000 accountsList =
        some (mainSession ATMState.IdleState 50000 none mainHeap) ∧
      ATMContext.Authenticate (mainSession ATMState.IdleState 50000 none mainHeap)
          "81975433120" "2311" =
        some (none, mainSession ATMState.AuthenticatedState 50000 (some 0) mainHeap) ∧
      ATMContext.WithdrawMoney
          (mainSession ATMState.AuthenticatedState 50000 (some 0) mainHeap) 60000 =
        some (some "atm machine ran out of money... doesn't have sufficient cash",
          mainSession ATMState.WithdrawState 50000 (some 0) mainHeap) ∧
      (mainSession ATMState.WithdrawState 50000 (some 0) mainHeap).atm.AvailableCash = 50000 ∧
      (mainSession ATMState.WithdrawState 50000 (some 0) mainHeap).heap = mainHeap ∧
      mainHeap 0 = { AccountNumber := "81975433120", Pin := "2311", Balance := 20000 } ∧
      mainHeap 1 = { AccountNumber := "51253524113", Pin := "1234", Balance := 50000 } :=
  ⟨newATMContext_main, authenticate_main, withdraw_main_60000, rfl, rfl, rfl, rfl⟩

/-! ## What a call may change -/

/-- An `Authenticate` that returns an error leaves the session as it was. -/
theorem authenticate_error_unchanged (s s' : Session) (num pin msg : String)
    (h : ATMContext.Authenticate s num pin = some (some msg, s')) : s' = s := by
  unfold ATMContext.Authenticate ATMState.Authenticate at h
  split at h
  · unfold IdleState.Authenticate at h
    split at h
    · simp at h
      exact h.2.symm
    · simp at h
    · split at h
      · simp at h
        exact h.2.symm
      · simp at h
  · simp [AuthenticatedState.Authenticate] at h
    exact h.2.symm
  · simp [WithdrawState.Authenticate] at h
    exact h.2.symm

/-- An `Authenticate` that returns `nil` ran in `IdleState` on a key of the map
whose account has the given pin, and only sets `ActiveAccount` and the state. -/
theorem authenticate_ok_inv (s s' : Session) (num pin : String)
    (h : ATMContext.Authenticate s num pin = some (none, s')) :
    s.atm.CurrentState = ATMState.IdleState ∧
    ∃ a, s.atm.Accounts num = some (some a) ∧ (s.heap a).Pin = pin ∧
      s' = { s with
        atm := ATMContext.setState { s.atm with ActiveAccount := some a }
          ATMState.AuthenticatedState } := by
  unfold ATMContext.Authenticate ATMState.Authenticate at h
  split at h
  · rename_i hst
    refine ⟨hst, ?_⟩
    unfold IdleState.Authenticate at h
    split at h
    · simp at h
    · simp at h
    · rename_i a hk
      split at h
      · simp at h
      · rename_i hp
        simp at h
        exact ⟨a, hk, not_not.mp hp, h.symm⟩
  · simp [AuthenticatedState.Authenticate] at h
  · simp [WithdrawState.Authenticate] at h

/-- The body of `WithdrawState.WithdrawMoney` changes nothing when it returns an
error. -/
theorem withdrawState_error_unchanged (s s' : Session) (amount : ℚ) (msg : String)
    (h : WithdrawState.WithdrawMoney s amount = some (some msg, s')) : s' = s := by
  unfold WithdrawState.WithdrawMoney at h
  simp only at h
  split at h
  · simp at h
    exact h.2.symm
  · split at h
    · simp at h
    · split at h
      · simp at h
        exact h.2.symm
      · simp at h

/-- A `WithdrawMoney` that returns an error changes at most `CurrentState`. -/
theorem withdrawMoney_error_inv (s s' : Session) (amnt : ℚ) (msg : String)
    (h : ATMContext.WithdrawMoney s amnt = some (some msg, s')) :
    s' = s ∨ (s.atm.CurrentState = ATMState.AuthenticatedState ∧
      s' = { s with atm := s.atm.setState ATMState.WithdrawState }) := by
  cases hst : s.atm.CurrentState
  · rw [withdrawMoney_of_idle s amnt hst] at h
    simp at h
    exact Or.inl h.2.symm
  · rw [withdrawMoney_of_not_idle s amnt (Or.inl hst)] at h
    exact Or.inr ⟨rfl, withdrawState_error_unchanged _ _ _ _ h⟩
  · rw [withdrawMoney_of_not_idle s amnt (Or.inr hst), setState_self s _ hst] at h
    exact Or.inl (withdrawState_error_unchanged _ _ _ _ h)

/-- C4: balances are mutated only by a successful withdrawal.  In every state, an
`Authenticate` call (whatever it returns) and a `WithdrawMoney` call that returns an
error leave `AvailableCash`, the account map and every account object as they
were. -/
theorem failure_leaves_money_unchanged :
    (∀ (s s' : Session) (num pin : String) (e : GoError),
      ATMContext.Authenticate s num pin = some (e, s') →
        s'.atm.AvailableCash = s.atm.AvailableCash ∧
        s'.atm.Accounts = s.atm.Accounts ∧ s'.heap = s.heap) ∧
    (∀ (s s' : Session) (amnt : ℚ) (msg : String),
      ATMContext.WithdrawMoney s amnt = some (some msg, s') →
        s'.atm.AvailableCash = s.atm.AvailableCash ∧
        s'.atm.Accounts = s.atm.Accounts ∧ s'.heap = s.heap) := by
  constructor
  · intro s s' num pin e h
    cases e with
    | some msg =>
        rw [authenticate_error_unchanged s s' num pin msg h]
        exact ⟨rfl, rfl, rfl⟩
    | none =>
        obtain ⟨_, a, _, _, rfl⟩ := authenticate_ok_inv s s' num pin h
        exact ⟨rfl, rfl, rfl⟩
  · intro s s' amnt msg h
    rcases withdrawMoney_error_inv s s' amnt msg h with rfl | ⟨_, rfl⟩
    · exact ⟨rfl, rfl, rfl⟩
    · exact ⟨rfl, rfl, rfl⟩

/-- Witness of C4: the successful `Authenticate` of `main` and the failing
`WithdrawMoney 30000` that follows it. -/
theorem failure_leaves_money_unchanged_witness :
    ((mainSession ATMState.AuthenticatedState 50000 (some 0) mainHeap).atm.AvailableCash =
        (mainSession ATMState.IdleState 50000 none mainHeap).atm.AvailableCash ∧
      (mainSession ATMState.AuthenticatedState 50000 (some 0) mainHeap).atm.Accounts =
        (mainSession ATMState.IdleState 50000 none mainHeap).atm.Accounts ∧
      (mainSession ATMState.AuthenticatedState 50000 (some 0) mainHeap).heap =
        (mainSession ATMState.IdleState 50000 none mainHeap).heap) ∧
    ((mainSession ATMState.WithdrawState 50000 (some 0) mainHeap).atm.AvailableCash =
        (mainSession ATMState.AuthenticatedState 50000 (some 0) mainHeap).atm.AvailableCash ∧
      (mainSession ATMState.WithdrawState 50000 (some 0) mainHeap).atm.Accounts =
        (mainSession ATMState.AuthenticatedState 50000 (some 0) mainHeap).atm.Accounts ∧
      (mainSession ATMState.WithdrawState 50000 (some 0) mainHeap).heap =
        (mainSession ATMState.AuthenticatedState 50000 (some 0) mainHeap).heap) :=
  ⟨failure_leaves_money_unchanged.1 _ _ "81975433120" "2311" none authenticate_main,
   failure_leaves_money_unchanged.2 _ _ 30000 "insufficient account balance"
     withdraw_main_30000⟩

/-! ## The constructor -/

theorem newATMContext_inv (heap : Nat → Account) (initialCash : ℚ)
    (accounts : List AccountPtr) (s0 : Session)
    (h : NewATMContext heap initialCash accounts = some s0) :
    ∃ m, fillAccountMap heap (fun _ => none) accounts = some m ∧
      s0 = { atm := { CurrentState := ATMState.IdleState, Accounts := m,
                      AvailableCash := initialCash, ActiveAccount := none }
             heap := heap } := by
  unfold NewATMContext at h
  split at h
  · simp at h
  · rename_i m hm
    simp only [Option.some.injEq] at h
    exact ⟨m, hm, h.symm⟩

/-- Every entry of the filled map was there before or is a listed account stored
under its own number. -/
theorem fillAccountMap_entry (heap : Nat → Account) (accounts : List AccountPtr) :
    ∀ (m m' : String → Option AccountPtr), fillAccountMap heap m accounts = some m' →
      ∀ k p, m' k = some p →
        m k = some p ∨ ∃ a, p = some a ∧ some a ∈ accounts ∧ (heap a).AccountNumber = k := by
  induction accounts with
  | nil =>
      intro m m' h k p hk
      simp only [fillAccountMap, Option.some.injEq] at h
      subst h
      exact Or.inl hk
  | cons hd tl ih =>
      intro m m' h k p hk
      cases hd with
      | none => simp [fillAccountMap] at h
      | some b =>
          simp only [fillAccountMap] at h
          rcases ih _ m' h k p hk with h1 | ⟨a, hp, ha, hn⟩
          · unfold mapInsert at h1
            split at h1
            · rename_i hkb
              simp only [Option.some.injEq] at h1
              exact Or.inr ⟨b, h1.symm, List.mem_cons_self _ _, hkb.symm⟩
            · exact Or.inl h1
          · exact Or.inr ⟨a, hp, List.mem_cons_of_mem _ ha, hn⟩

/-- A key that is the number of no listed account keeps its old entry. -/
theorem fillAccountMap_other (heap : Nat → Account) (accounts : List AccountPtr) (k : String) :
    ∀ (m m' : String → Option AccountPtr), fillAccountMap heap m accounts = some m' →
      (∀ c, some c ∈ accounts → (heap c).AccountNumber ≠ k) → m' k = m k := by
  induction accounts with
  | nil =>
      intro m m' h _
      simp only [fillAccountMap, Option.some.injEq] at h
      rw [h]
  | cons hd tl ih =>
      intro m m' h hno
      cases hd with
      | none => simp [fillAccountMap] at h
      | some b =>
          simp only [fillAccountMap] at h
          rw [ih _ m' h (fun c hc => hno c (List.mem_cons_of_mem _ hc))]
          have hb : k ≠ (heap b).AccountNumber :=
            fun e => hno b (List.mem_cons_self _ _) e.symm
          simp [mapInsert, hb]

/-- With pairwise distinct numbers every listed account is the map entry of its
own number. -/
theorem fillAccountMap_distinct (heap : Nat → Account) (accounts : List AccountPtr) (a : Nat) :
    ∀ (m m' : String → Option AccountPtr), fillAccountMap heap m accounts = some m' →
      DistinctNumbers heap accounts → some a ∈ accounts →
        m' (heap a).AccountNumber = some (some a) := by
  induction accounts with
  | nil =>
      intro m m' _ _ ha
      simp at ha
  | cons hd tl ih =>
      intro m m' h hd' ha
      cases hd with
      | none => simp [fillAccountMap] at h
      | some b =>
          simp only [fillAccountMap] at h
          unfold DistinctNumbers at hd'
          rw [List.pairwise_cons] at hd'
          by_cases hin : some a ∈ tl
          · exact ih _ m' h hd'.2 hin
          · have hab : a = b := by
              rcases List.mem_cons.mp ha with h1 | h1
              · exact Option.some.inj h1
              · exact absurd h1 hin
            subst hab
            rw [fillAccountMap_other heap tl _ _ m' h
              (fun c hc => (hd'.1 (some c) hc a c rfl rfl).symm)]
            simp [mapInsert]

theorem newATMContext_consistent (heap : Nat → Account) (initialCash : ℚ)
    (accounts : List AccountPtr) (s0 : Session)
    (h : NewATMContext heap initialCash accounts = some s0) :
    Consistent accounts s0 ∧ s0.heap = heap ∧ s0.atm.AvailableCash = initialCash := by
  obtain ⟨m, hm, rfl⟩ := newATMContext_inv heap initialCash accounts s0 h
  refine ⟨⟨?_, ?_, ?_⟩, rfl, rfl⟩
  · intro k p hk
    rcases fillAccountMap_entry heap accounts _ m hm k p hk with h1 | h1
    · simp at h1
    · exact h1
  · intro a ha
    simp at ha
  · simp

/-! ## One call on a consistent session -/

theorem debit_accountNumber (heap : Nat → Account) (a b : Nat) (amount : ℚ) :
    (debit heap a amount b).AccountNumber = (heap b).AccountNumber := by
  unfold debit
  split
  · rename_i h
    rw [h]
  · rfl

/-- The three ways out of the public `WithdrawMoney` outside `IdleState` when an
account is active; in each of them `WithdrawState` is installed. -/
theorem withdrawMoney_cases (s : Session) (amnt : ℚ) (a : Nat)
    (hst : s.atm.CurrentState = ATMState.AuthenticatedState ∨
      s.atm.CurrentState = ATMState.WithdrawState)
    (ha : s.atm.ActiveAccount = some a) :
    (s.atm.AvailableCash < amnt ∧
      ATMContext.WithdrawMoney s amnt =
        some (some "atm machine ran out of money... doesn't have sufficient cash",
          { s with atm := s.atm.setState ATMState.WithdrawState })) ∨
    (amnt ≤ s.atm.AvailableCash ∧ (s.heap a).Balance < amnt ∧
      ATMContext.WithdrawMoney s amnt =
        some (some "insufficient account balance",
          { s with atm := s.atm.setState ATMState.WithdrawState })) ∨
    (amnt ≤ s.atm.AvailableCash ∧ amnt ≤ (s.heap a).Balance ∧
      ATMContext.WithdrawMoney s amnt =
        some (none,
          { atm := { s.atm with CurrentState := ATMState.WithdrawState,
                                AvailableCash := s.atm.AvailableCash - amnt }
            heap := debit s.heap a amnt })) := by
  rw [withdrawMoney_of_not_idle s amnt hst]
  exact withdrawState_cases { s with atm := s.atm.setState ATMState.WithdrawState } amnt a ha

theorem consistent_setState_withdraw (accounts : List AccountPtr) (s : Session)
    (hc : Consistent accounts s) (hne : s.atm.ActiveAccount ≠ none) :
    Consistent accounts { s with atm := s.atm.setState ATMState.WithdrawState } := by
  obtain ⟨h1, h2, _⟩ := hc
  refine ⟨h1, h2, ?_⟩
  simp [ATMContext.setState, hne]

theorem authenticate_consistent (accounts : List AccountPtr) (s : Session)
    (num pin : String) (hc : Consistent accounts s) :
    ∃ e s', ATMContext.Authenticate s num pin = some (e, s') ∧ Consistent accounts s' ∧
      s'.heap = s.heap ∧ s'.atm.AvailableCash = s.atm.AvailableCash := by
  unfold ATMContext.Authenticate ATMState.Authenticate
  split
  · unfold IdleState.Authenticate
    split
    · exact ⟨_, _, rfl, hc, rfl, rfl⟩
    · rename_i hk
      obtain ⟨a, ha, _⟩ := hc.1 _ _ hk
      simp at ha
    · rename_i a hk
      split
      · exact ⟨_, _, rfl, hc, rfl, rfl⟩
      · refine ⟨_, _, rfl, ⟨hc.1, ?_, ?_⟩, rfl, rfl⟩
        · intro b hb
          simp only [ATMContext.setState, Option.some.injEq] at hb
          subst hb
          obtain ⟨a', ha', _, hn⟩ := hc.1 _ _ hk
          simp only [Option.some.injEq] at ha'
          subst ha'
          simp only [ATMContext.setState]
          rw [hn]
          exact hk
        · simp [ATMContext.setState]
  · exact ⟨_, _, rfl, hc, rfl, rfl⟩
  · exact ⟨_, _, rfl, hc, rfl, rfl⟩

theorem withdrawMoney_consistent (accounts : List AccountPtr) (s : Session) (amnt : ℚ)
    (hc : Consistent accounts s) :
    ∃ e s', ATMContext.WithdrawMoney s amnt = some (e, s') ∧ Consistent accounts s' ∧
      (NonNegative accounts s → NonNegative accounts s') := by
  cases hst : s.atm.CurrentState with
  | IdleState => exact ⟨_, _, withdrawMoney_of_idle s amnt hst, hc, id⟩
  | AuthenticatedState | WithdrawState =>
      have hne : s.atm.ActiveAccount ≠ none := by
        intro h0
        have := hc.2.2.mp h0
        rw [hst] at this
        cases this
      obtain ⟨a, ha⟩ := Option.ne_none_iff_exists'.mp hne
      have hcw := consistent_setState_withdraw accounts s hc hne
      rcases withdrawMoney_cases s amnt a (by simp [hst]) ha with
        ⟨_, h1⟩ | ⟨_, _, h1⟩ | ⟨hcash, hbal, h1⟩
      · exact ⟨_, _, h1, hcw, id⟩
      · exact ⟨_, _, h1, hcw, id⟩
      · refine ⟨_, _, h1, ⟨?_, ?_, ?_⟩, ?_⟩
        · intro k p hk
          obtain ⟨b, hb, hmem, hn⟩ := hc.1 k p hk
          exact ⟨b, hb, hmem, by simp only [debit_accountNumber]; exact hn⟩
        · intro b hb
          simp only [debit_accountNumber]
          exact hc.2.1 b hb
        · simp [hne]
        · rintro ⟨hn1, hn2⟩
          refine ⟨sub_nonneg.mpr hcash, ?_⟩
          intro b hb
          simp only [debit]
          split
          · exact sub_nonneg.mpr hbal
          · exact hn2 b hb

theorem run_consistent (accounts : List AccountPtr) (s : Session) (c : Call)
    (hc : Consistent accounts s) :
    ∃ e s', c.run s = some (e, s') ∧ Consistent accounts s' ∧
      (NonNegative accounts s → NonNegative accounts s') := by
  cases c with
  | Authenticate num pin =>
      obtain ⟨e, s', h, hc', hh, hcash⟩ := authenticate_consistent accounts s num pin hc
      refine ⟨e, s', h, hc', ?_⟩
      rintro ⟨hn1, hn2⟩
      exact ⟨by rw [hcash]; exact hn1, fun a ha => by rw [hh]; exact hn2 a ha⟩
  | WithdrawMoney amnt => exact withdrawMoney_consistent accounts s amnt hc

/-- A sequence of calls on a consistent session never panics and keeps it
consistent and non-negative. -/
theorem runCalls_consistent (accounts : List AccountPtr) (calls : List Call) :
    ∀ s : Session, Consistent accounts s →
      ∃ s', runCalls s calls = some s' ∧ Consistent accounts s' ∧
        (NonNegative accounts s → NonNegative accounts s') := by
  induction calls with
  | nil => exact fun s hc => ⟨s, rfl, hc, id⟩
  | cons c cs ih =>
      intro s hc
      obtain ⟨e, s1, h1, hc1, hn1⟩ := run_consistent accounts s c hc
      obtain ⟨s', h2, hc2, hn2⟩ := ih s1 hc1
      refine ⟨s', ?_, hc2, fun hn => hn2 (hn1 hn)⟩
      simp only [runCalls, h1]
      exact h2

theorem mainHeap_nonneg : ∀ a, some a ∈ accountsList → 0 ≤ (mainHeap a).Balance := by
  intro a ha
  simp only [accountsList, List.mem_cons, Option.some.injEq, List.mem_singleton,
    List.not_mem_nil, or_false] at ha
  rcases ha with rfl | rfl <;> simp [mainHeap]

theorem accountsList_distinct : DistinctNumbers mainHeap accountsList := by
  simp [DistinctNumbers, accountsList, mainHeap]

/-! ## Invariants of a session -/

/-- C5: non-negativity invariant.  On a session built by `NewATMContext` with
`initialCash ≥ 0` and every listed balance `≥ 0`, every finite sequence of
`Authenticate` and `WithdrawMoney` calls with arbitrary arguments runs to its end
and leaves `AvailableCash ≥ 0` and the balance of every listed account, and of
every account of the map, `≥ 0`. -/
theorem balances_never_negative (heap : Nat → Account) (initialCash : ℚ)
    (accounts : List AccountPtr) (s0 : Session) (calls : List Call)
    (hcash : 0 ≤ initialCash)
    (hbal : ∀ a, some a ∈ accounts → 0 ≤ (heap a).Balance)
    (hnew : NewATMContext heap initialCash accounts = some s0) :
    ∃ s, runCalls s0 calls = some s ∧ 0 ≤ s.atm.AvailableCash ∧
      (∀ a, some a ∈ accounts → 0 ≤ (s.heap a).Balance) ∧
      (∀ k a, s.atm.Accounts k = some (some a) → 0 ≤ (s.heap a).Balance) := by
  obtain ⟨hc, hh, hk⟩ := newATMContext_consistent heap initialCash accounts s0 hnew
  obtain ⟨s, hrun, hcs, hnn⟩ := runCalls_consistent accounts calls s0 hc
  have h0 : NonNegative accounts s0 :=
    ⟨by rw [hk]; exact hcash, fun a ha => by rw [hh]; exact hbal a ha⟩
  obtain ⟨h1, h2⟩ := hnn h0
  refine ⟨s, hrun, h1, h2, ?_⟩
  intro k a hka
  obtain ⟨b, hb, hmem, _⟩ := hcs.1 k _ hka
  simp only [Option.some.injEq] at hb
  subst hb
  exact h2 a hmem

/-- Witness of C5: the session of `main` under a successful authentication, a
withdrawal of 15000, a withdrawal of a negative amount and one of 60000. -/
theorem balances_never_negative_witness :
    ∃ s, runCalls (mainSession ATMState.IdleState 50000 none mainHeap)
        [Call.Authenticate "81975433120" "2311", Call.WithdrawMoney 15000,
          Call.WithdrawMoney (-250), Call.WithdrawMoney 60000] = some s ∧
      0 ≤ s.atm.AvailableCash ∧
      (∀ a, some a ∈ accountsList → 0 ≤ (s.heap a).Balance) ∧
      (∀ k a, s.atm.Accounts k = some (some a) → 0 ≤ (s.heap a).Balance) :=
  balances_never_negative mainHeap 50000 accountsList _ _ (by norm_num) mainHeap_nonneg
    newATMContext_main

/-- C6: successful authentication.  On a session freshly built by `NewATMContext`
from a list with pairwise distinct account numbers, `Authenticate` with the number
and pin of any listed account `a` runs in `IdleState`, returns `nil`, installs
`AuthenticatedState` and makes `a` the active account; nothing else changes. -/
theorem authenticate_listed_account (heap : Nat → Account) (initialCash : ℚ)
    (accounts : List AccountPtr) (s0 : Session) (a : Nat)
    (hdist : DistinctNumbers heap accounts)
    (hnew : NewATMContext heap initialCash accounts = some s0)
    (ha : some a ∈ accounts) :
    s0.atm.CurrentState = ATMState.IdleState ∧
    ∃ s1, ATMContext.Authenticate s0 (heap a).AccountNumber (heap a).Pin = some (none, s1) ∧
      s1.atm.CurrentState = ATMState.AuthenticatedState ∧
      s1.atm.ActiveAccount = some a ∧
      s1.heap a = heap a ∧
      s1.heap = s0.heap ∧ s1.atm.Accounts = s0.atm.Accounts ∧
      s1.atm.AvailableCash = s0.atm.AvailableCash := by
  obtain ⟨m, hm, rfl⟩ := newATMContext_inv heap initialCash accounts s0 hnew
  have hk := fillAccountMap_distinct heap accounts a _ m hm hdist ha
  refine ⟨rfl, ⟨⟨ATMState.AuthenticatedState, m, initialCash, some a⟩, heap⟩, ?_,
    rfl, rfl, rfl, rfl, rfl, rfl⟩
  simp [ATMContext.Authenticate, ATMState.Authenticate, IdleState.Authenticate, hk,
    ATMContext.setState]

/-- Witness of C6: the second account of `main`. -/
theorem authenticate_listed_account_witness :
    (mainSession ATMState.IdleState 50000 none mainHeap).atm.CurrentState =
        ATMState.IdleState ∧
    ∃ s1, ATMContext.Authenticate (mainSession ATMState.IdleState 50000 none mainHeap)
        (mainHeap 1).AccountNumber (mainHeap 1).Pin = some (none, s1) ∧
      s1.atm.CurrentState = ATMState.AuthenticatedState ∧
      s1.atm.ActiveAccount = some 1 ∧
      s1.heap 1 = mainHeap 1 ∧
      s1.heap = (mainSession ATMState.IdleState 50000 none mainHeap).heap ∧
      s1.atm.Accounts = (mainSession ATMState.IdleState 50000 none mainHeap).atm.Accounts ∧
      s1.atm.AvailableCash =
        (mainSession ATMState.IdleState 50000 none mainHeap).atm.AvailableCash :=
  authenticate_listed_account mainHeap 50000 accountsList _ 1 accountsList_distinct
    newATMContext_main (by simp [accountsList])

/-- C7: failed authentication in `IdleState`.  The call returns "account number
doesn't exist" exactly when the number is no key of the map, and "PIN is not
matching" exactly when the number is a key whose account has a pin different from
the given string; a failing call leaves the session as it was (still `IdleState`,
same `ActiveAccount`), so a following call with the number and pin of a map entry
succeeds.  Scenarios C and D are evaluated on the session of `main`. -/
theorem authenticate_idle_failure :
    (∀ (s : Session) (num pin : String), s.atm.CurrentState = ATMState.IdleState →
      (returnedError (ATMContext.Authenticate s num pin) =
          some (some "account number doesn't exist") ↔ s.atm.Accounts num = none) ∧
      (returnedError (ATMContext.Authenticate s num pin) =
          some (some "PIN is not matching") ↔
        ∃ a, s.atm.Accounts num = some (some a) ∧ (s.heap a).Pin ≠ pin) ∧
      (∀ (msg : String) (s' : Session),
        ATMContext.Authenticate s num pin = some (some msg, s') →
          s' = s ∧ s'.atm.CurrentState = ATMState.IdleState ∧
          s'.atm.ActiveAccount = s.atm.ActiveAccount ∧
          ∀ (num2 : String) (a : Nat), s.atm.Accounts num2 = some (some a) →
            ∃ s2, ATMContext.Authenticate s' num2 (s.heap a).Pin = some (none, s2) ∧
              s2.atm.CurrentState = ATMState.AuthenticatedState ∧
              s2.atm.ActiveAccount = some a)) ∧
    (ATMContext.Authenticate (mainSession ATMState.IdleState 50000 none mainHeap)
        "00000000000" "0000" =
      some (some "account number doesn't exist",
        mainSession ATMState.IdleState 50000 none mainHeap) ∧
     ATMContext.Authenticate (mainSession ATMState.IdleState 50000 none mainHeap)
        "81975433120" "2311" =
      some (none, mainSession ATMState.AuthenticatedState 50000 (some 0) mainHeap)) ∧
    (ATMContext.Authenticate (mainSession ATMState.IdleState 50000 none mainHeap)
        "81975433120" "0000" =
      some (some "PIN is not matching",
        mainSession ATMState.IdleState 50000 none mainHeap) ∧
     (mainSession ATMState.IdleState 50000 none mainHeap).atm.ActiveAccount = none) := by
  refine ⟨?_, ⟨rfl, rfl⟩, ⟨rfl, rfl⟩⟩
  intro s num pin hst
  have hA : ATMContext.Authenticate s num pin = IdleState.Authenticate s num pin := by
    simp [ATMContext.Authenticate, ATMState.Authenticate, hst]
  refine ⟨?_, ?_, ?_⟩
  · rw [hA]
    unfold IdleState.Authenticate
    split
    · rename_i hk
      simp [returnedError, hk]
    · rename_i hk
      simp [returnedError, hk]
    · rename_i a hk
      split <;> simp [returnedError, hk]
  · rw [hA]
    unfold IdleState.Authenticate
    split
    · rename_i hk
      simp [returnedError, hk]
    · rename_i hk
      simp [returnedError, hk]
    · rename_i a hk
      split
      · rename_i hp
        simp [returnedError, hk, hp]
      · rename_i hp
        simp [returnedError, hk, hp]
  · intro msg s' h
    have hs := authenticate_error_unchanged s s' num pin msg h
    subst hs
    refine ⟨rfl, hst, rfl, ?_⟩
    intro num2 a hk
    refine ⟨⟨⟨ATMState.AuthenticatedState, s'.atm.Accounts, s'.atm.AvailableCash, some a⟩,
      s'.heap⟩, ?_, rfl, rfl⟩
    simp [ATMContext.Authenticate, ATMState.Authenticate, hst, IdleState.Authenticate, hk,
      ATMContext.setState]

/-- Witness of C7: the unknown number of Scenario C on the session of `main`. -/
theorem authenticate_idle_failure_witness :
    (returnedError (ATMContext.Authenticate
        (mainSession ATMState.IdleState 50000 none mainHeap) "00000000000" "0000") =
      some (some "account number doesn't exist") ↔
      (mainSession ATMState.IdleState 50000 none mainHeap).atm.Accounts "00000000000" = none) :=
  (authenticate_idle_failure.1 (mainSession ATMState.IdleState 50000 none mainHeap)
    "00000000000" "0000" rfl).1

/-- C8: session invariant linking `ActiveAccount` and the state.  Every finite
sequence of `Authenticate` and `WithdrawMoney` calls on a session built by
`NewATMContext` (any cash, any account list) runs to its end, and in the session
it leaves `ActiveAccount` is set exactly when `CurrentState` is
`AuthenticatedState` or `WithdrawState`, and unset exactly in `IdleState`. -/
theorem activeAccount_iff_state (heap : Nat → Account) (initialCash : ℚ)
    (accounts : List AccountPtr) (s0 : Session) (calls : List Call)
    (hnew : NewATMContext heap initialCash accounts = some s0) :
    ∃ s, runCalls s0 calls = some s ∧
      (s.atm.ActiveAccount ≠ none ↔
        (s.atm.CurrentState = ATMState.AuthenticatedState ∨
          s.atm.CurrentState = ATMState.WithdrawState)) ∧
      (s.atm.ActiveAccount = none ↔ s.atm.CurrentState = ATMState.IdleState) := by
  obtain ⟨hc, _, _⟩ := newATMContext_consistent heap initialCash accounts s0 hnew
  obtain ⟨s, hrun, hcs, _⟩ := runCalls_consistent accounts calls s0 hc
  refine ⟨s, hrun, ?_, hcs.2.2⟩
  rw [Ne, hcs.2.2]
  cases s.atm.CurrentState <;> simp

/-- Witness of C8: the session of `main` after a failed authentication, a
successful one and a withdrawal. -/
theorem activeAccount_iff_state_witness :
    ∃ s, runCalls (mainSession ATMState.IdleState 50000 none mainHeap)
        [Call.Authenticate "81975433120" "0000", Call.Authenticate "81975433120" "2311",
          Call.WithdrawMoney 15000] = some s ∧
      (s.atm.ActiveAccount ≠ none ↔
        (s.atm.CurrentState = ATMState.AuthenticatedState ∨
          s.atm.CurrentState = ATMState.WithdrawState)) ∧
      (s.atm.ActiveAccount = none ↔ s.atm.CurrentState = ATMState.IdleState) :=
  activeAccount_iff_state mainHeap 50000 accountsList _ _ newATMContext_main

/-! ## Transitions -/

/-- C9 as stated fails: on the authenticated session of `main`, `WithdrawMoney 30000`
returns the error "insufficient account balance" and leaves `WithdrawState`
installed where `AuthenticatedState` was. -/
theorem error_return_changes_state :
    (mainSession ATMState.AuthenticatedState 50000 (some 0) mainHeap).atm.CurrentState =
        ATMState.AuthenticatedState ∧
      ATMContext.WithdrawMoney
          (mainSession ATMState.AuthenticatedState 50000 (some 0) mainHeap) 30000 =
        some (some "insufficient account balance",
          mainSession ATMState.WithdrawState 50000 (some 0) mainHeap) ∧
      (mainSession ATMState.WithdrawState 50000 (some 0) mainHeap).atm.CurrentState ≠
        (mainSession ATMState.AuthenticatedState 50000 (some 0) mainHeap).atm.CurrentState := by
  refine ⟨rfl, withdraw_main_30000, ?_⟩
  simp [mainSession]

/-- C9 amended: an `Authenticate` call that returns an error, and a `WithdrawMoney`
call that returns an error in `IdleState` or `WithdrawState`, leave `CurrentState`
as it was; a `WithdrawMoney` call that returns an error in `AuthenticatedState`
leaves `WithdrawState` installed. -/
theorem error_return_state :
    (∀ (s s' : Session) (num pin msg : String),
      ATMContext.Authenticate s num pin = some (some msg, s') →
        s'.atm.CurrentState = s.atm.CurrentState) ∧
    (∀ (s s' : Session) (amnt : ℚ) (msg : String),
      ATMContext.WithdrawMoney s amnt = some (some msg, s') →
      s.atm.CurrentState ≠ ATMState.AuthenticatedState →
        s'.atm.CurrentState = s.atm.CurrentState) ∧
    (∀ (s s' : Session) (amnt : ℚ) (msg : String),
      ATMContext.WithdrawMoney s amnt = some (some msg, s') →
      s.atm.CurrentState = ATMState.AuthenticatedState →
        s'.atm.CurrentState = ATMState.WithdrawState) := by
  refine ⟨?_, ?_, ?_⟩
  · intro s s' num pin msg h
    rw [authenticate_error_unchanged s s' num pin msg h]
  · intro s s' amnt msg h hst
    rcases withdrawMoney_error_inv s s' amnt msg h with rfl | ⟨h1, _⟩
    · rfl
    · exact absurd h1 hst
  · intro s s' amnt msg h hst
    rcases withdrawMoney_error_inv s s' amnt msg h with rfl | ⟨_, rfl⟩
    · rw [withdrawMoney_of_not_idle s' amnt (Or.inl hst)] at h
      have h2 := withdrawState_error_unchanged _ _ _ _ h
      have h3 := congrArg (fun t : Session => t.atm.CurrentState) h2
      simp only [ATMContext.setState] at h3
      exact h3
    · rfl

/-- Witness of C9 amended: the wrong pin of Scenario D (state unchanged), a refused
withdrawal in `WithdrawState` (state unchanged) and the refused withdrawal of
30000 in `AuthenticatedState` (state becomes `WithdrawState`). -/
theorem error_return_state_witness :
    (mainSession ATMState.IdleState 50000 none mainHeap).atm.CurrentState =
        (mainSession ATMState.IdleState 50000 none mainHeap).atm.CurrentState ∧
      (mainSession ATMState.IdleState 50000 none mainHeap).atm.CurrentState =
        (mainSession ATMState.IdleState 50000 none mainHeap).atm.CurrentState ∧
      (mainSession ATMState.WithdrawState 50000 (some 0) mainHeap).atm.CurrentState =
        ATMState.WithdrawState :=
  ⟨error_return_state.1 (mainSession ATMState.IdleState 50000 none mainHeap) _
      "81975433120" "0000" "PIN is not matching" rfl,
   error_return_state.2.1 (mainSession ATMState.IdleState 50000 none mainHeap) _ 100
      "please authenticate first" (withdrawMoney_of_idle _ _ rfl) (by simp [mainSession]),
   error_return_state.2.2 _ _ 30000 "insufficient account balance" withdraw_main_30000 rfl⟩

/-- The body of `WithdrawState.WithdrawMoney` never touches `CurrentState` or
`ActiveAccount`. -/
theorem withdrawState_keeps_state (s s' : Session) (amount : ℚ) (e : GoError)
    (h : WithdrawState.WithdrawMoney s amount = some (e, s')) :
    s'.atm.CurrentState = s.atm.CurrentState ∧ s'.atm.ActiveAccount = s.atm.ActiveAccount := by
  unfold WithdrawState.WithdrawMoney at h
  simp only at h
  split at h
  · simp only [Option.some.injEq, Prod.mk.injEq] at h
    rw [← h.2]
    exact ⟨rfl, rfl⟩
  · split at h
    · simp at h
    · split at h
      · simp only [Option.some.injEq, Prod.mk.injEq] at h
        rw [← h.2]
        exact ⟨rfl, rfl⟩
      · simp only [Option.some.injEq, Prod.mk.injEq] at h
        rw [← h.2]
        exact ⟨rfl, rfl⟩

/-- Outside `IdleState` a `WithdrawMoney` that returns leaves `WithdrawState`
installed and the active account as it was. -/
theorem withdrawMoney_enters_withdrawState (s s' : Session) (amnt : ℚ) (e : GoError)
    (hst : s.atm.CurrentState = ATMState.AuthenticatedState ∨
      s.atm.CurrentState = ATMState.WithdrawState)
    (h : ATMContext.WithdrawMoney s amnt = some (e, s')) :
    s'.atm.CurrentState = ATMState.WithdrawState ∧
      s'.atm.ActiveAccount = s.atm.ActiveAccount := by
  rw [withdrawMoney_of_not_idle s amnt hst] at h
  exact withdrawState_keeps_state _ _ _ _ h

/-- In `WithdrawState` any call that returns leaves `WithdrawState` installed and
the active account as it was. -/
theorem run_in_withdrawState (s s' : Session) (c : Call) (e : GoError)
    (hst : s.atm.CurrentState = ATMState.WithdrawState)
    (h : c.run s = some (e, s')) :
    s'.atm.CurrentState = ATMState.WithdrawState ∧
      s'.atm.ActiveAccount = s.atm.ActiveAccount := by
  cases c with
  | Authenticate num pin =>
      simp only [Call.run, ATMContext.Authenticate, ATMState.Authenticate, hst,
        WithdrawState.Authenticate, Option.some.injEq, Prod.mk.injEq] at h
      rw [← h.2]
      exact ⟨hst, rfl⟩
  | WithdrawMoney amnt => exact withdrawMoney_enters_withdrawState s s' amnt e (Or.inr hst) h

theorem run_in_withdrawState_returns (s : Session) (c : Call)
    (hst : s.atm.CurrentState = ATMState.WithdrawState)
    (hne : s.atm.ActiveAccount ≠ none) :
    ∃ e s', c.run s = some (e, s') := by
  cases c with
  | Authenticate num pin =>
      exact ⟨some "can't authenticate during a transaction", s,
        by simp [Call.run, ATMContext.Authenticate, ATMState.Authenticate, hst,
          WithdrawState.Authenticate]⟩
  | WithdrawMoney amnt =>
      obtain ⟨a, ha⟩ := Option.ne_none_iff_exists'.mp hne
      rcases withdrawMoney_cases s amnt a (Or.inr hst) ha with
        ⟨_, h1⟩ | ⟨_, _, h1⟩ | ⟨_, _, h1⟩
      · exact ⟨_, _, h1⟩
      · exact ⟨_, _, h1⟩
      · exact ⟨_, _, h1⟩

theorem runCalls_in_withdrawState (calls : List Call) :
    ∀ s s' : Session, s.atm.CurrentState = ATMState.WithdrawState →
      runCalls s calls = some s' → s'.atm.CurrentState = ATMState.WithdrawState := by
  induction calls with
  | nil =>
      intro s s' hst h
      simp only [runCalls, Option.some.injEq] at h
      rw [← h]
      exact hst
  | cons c cs ih =>
      intro s s' hst h
      simp only [runCalls] at h
      split at h
      · simp at h
      · rename_i e s1 h1
        exact ih s1 s' (run_in_withdrawState s s1 c e hst h1).1 h

theorem runCalls_in_withdrawState_returns (calls : List Call) :
    ∀ s : Session, s.atm.CurrentState = ATMState.WithdrawState →
      s.atm.ActiveAccount ≠ none → ∃ s', runCalls s calls = some s' := by
  induction calls with
  | nil => exact fun s _ _ => ⟨s, rfl⟩
  | cons c cs ih =>
      intro s hst hne
      obtain ⟨e, s1, h1⟩ := run_in_withdrawState_returns s c hst hne
      obtain ⟨hs1, ha1⟩ := run_in_withdrawState s s1 c e hst h1
      obtain ⟨s', h2⟩ := ih s1 hs1 (by rw [ha1]; exact hne)
      exact ⟨s', by simp only [runCalls, h1]; exact h2⟩

/-- C10: `WithdrawState` is entered by any withdrawal attempt and is absorbing.  In
`AuthenticatedState` or `WithdrawState` a `WithdrawMoney` call that returns, with
`nil` or with an error, leaves `WithdrawState` installed, and it does return when an
account is active; in `WithdrawState` every call, and so every finite sequence of
calls, leaves `WithdrawState` installed, and such a sequence runs to its end when
an account is active. -/
theorem withdrawState_absorbing :
    (∀ (s s' : Session) (amnt : ℚ) (e : GoError),
      (s.atm.CurrentState = ATMState.AuthenticatedState ∨
        s.atm.CurrentState = ATMState.WithdrawState) →
      ATMContext.WithdrawMoney s amnt = some (e, s') →
        s'.atm.CurrentState = ATMState.WithdrawState) ∧
    (∀ (s : Session) (amnt : ℚ),
      (s.atm.CurrentState = ATMState.AuthenticatedState ∨
        s.atm.CurrentState = ATMState.WithdrawState) →
      s.atm.ActiveAccount ≠ none →
        ∃ e s', ATMContext.WithdrawMoney s amnt = some (e, s') ∧
          s'.atm.CurrentState = ATMState.WithdrawState) ∧
    (∀ (s s' : Session) (c : Call) (e : GoError),
      s.atm.CurrentState = ATMState.WithdrawState → c.run s = some (e, s') →
        s'.atm.CurrentState = ATMState.WithdrawState) ∧
    (∀ (s s' : Session) (calls : List Call),
      s.atm.CurrentState = ATMState.WithdrawState → runCalls s calls = some s' →
        s'.atm.CurrentState = ATMState.WithdrawState) ∧
    (∀ (s : Session) (calls : List Call),
      s.atm.CurrentState = ATMState.WithdrawState → s.atm.ActiveAccount ≠ none →
        ∃ s', runCalls s calls = some s' ∧
          s'.atm.CurrentState = ATMState.WithdrawState) := by
  refine ⟨?_, ?_, ?_, ?_, ?_⟩
  · intro s s' amnt e hst h
    exact (withdrawMoney_enters_withdrawState s s' amnt e hst h).1
  · intro s amnt hst hne
    obtain ⟨a, ha⟩ := Option.ne_none_iff_exists'.mp hne
    rcases withdrawMoney_cases s amnt a hst ha with ⟨_, h1⟩ | ⟨_, _, h1⟩ | ⟨_, _, h1⟩
    · exact ⟨_, _, h1, rfl⟩
    · exact ⟨_, _, h1, rfl⟩
    · exact ⟨_, _, h1, rfl⟩
  · intro s s' c e hst h
    exact (run_in_withdrawState s s' c e hst h).1
  · intro s s' calls hst h
    exact runCalls_in_withdrawState calls s s' hst h
  · intro s calls hst hne
    obtain ⟨s', h⟩ := runCalls_in_withdrawState_returns calls s hst hne
    exact ⟨s', h, runCalls_in_withdrawState calls s s' hst h⟩

/-- Witness of C10: the withdrawal of 15000 on the authenticated session of `main`,
and a further authentication and withdrawal on the session it leaves. -/
theorem withdrawState_absorbing_witness :
    (mainSession ATMState.WithdrawState 35000 (some 0) (debit mainHeap 0 15000)).atm.CurrentState =
        ATMState.WithdrawState ∧
    ∃ s', runCalls
        (mainSession ATMState.WithdrawState 35000 (some 0) (debit mainHeap 0 15000))
        [Call.Authenticate "51253524113" "1234", Call.WithdrawMoney 1000] = some s' ∧
      s'.atm.CurrentState = ATMState.WithdrawState :=
  ⟨withdrawState_absorbing.1 _ _ 15000 none (Or.inl rfl) withdraw_main_15000,
   withdrawState_absorbing.2.2.2.2 _ _ rfl (by simp [mainSession])⟩

/-! ## Calls in the wrong state -/

theorem authenticate_of_authenticated (s : Session) (num pin : String)
    (hst : s.atm.CurrentState = ATMState.AuthenticatedState) :
    ATMContext.Authenticate s num pin = some (some "already authenticated", s) := by
  simp [ATMContext.Authenticate, ATMState.Authenticate, hst, AuthenticatedState.Authenticate]

theorem authenticate_of_withdrawState (s : Session) (num pin : String)
    (hst : s.atm.CurrentState = ATMState.WithdrawState) :
    ATMContext.Authenticate s num pin =
      some (some "can't authenticate during a transaction", s) := by
  simp [ATMContext.Authenticate, ATMState.Authenticate, hst, WithdrawState.Authenticate]

/-- C11: second authentication is rejected.  In `AuthenticatedState` with active
account `a`, `Authenticate` with any number and pin returns "already
authenticated" and leaves the session as it was, so `a` is still active and the
state is still `AuthenticatedState`; hence an `Authenticate` that follows a
successful one fails in this way. -/
theorem second_authenticate_rejected :
    (∀ (s : Session) (a : Nat) (num pin : String),
      s.atm.CurrentState = ATMState.AuthenticatedState → s.atm.ActiveAccount = some a →
        ∃ s', ATMContext.Authenticate s num pin = some (some "already authenticated", s') ∧
          s' = s ∧ s'.atm.ActiveAccount = some a ∧
          s'.atm.CurrentState = ATMState.AuthenticatedState) ∧
    (∀ (s s1 : Session) (num pin num2 pin2 : String),
      ATMContext.Authenticate s num pin = some (none, s1) →
        ATMContext.Authenticate s1 num2 pin2 = some (some "already authenticated", s1)) := by
  constructor
  · intro s a num pin hst ha
    exact ⟨s, authenticate_of_authenticated s num pin hst, rfl, ha, hst⟩
  · intro s s1 num pin num2 pin2 h
    obtain ⟨_, a, _, _, rfl⟩ := authenticate_ok_inv s s1 num pin h
    exact authenticate_of_authenticated _ num2 pin2 rfl

/-- Witness of C11: after the successful `Authenticate` of `main`, the same pair
and the pair of the other account are both refused. -/
theorem second_authenticate_rejected_witness :
    (∃ s', ATMContext.Authenticate
        (mainSession ATMState.AuthenticatedState 50000 (some 0) mainHeap)
        "51253524113" "1234" = some (some "already authenticated", s') ∧
      s' = mainSession ATMState.AuthenticatedState 50000 (some 0) mainHeap ∧
      s'.atm.ActiveAccount = some 0 ∧
      s'.atm.CurrentState = ATMState.AuthenticatedState) ∧
    ATMContext.Authenticate (mainSession ATMState.AuthenticatedState 50000 (some 0) mainHeap)
        "81975433120" "2311" =
      some (some "already authenticated",
        mainSession ATMState.AuthenticatedState 50000 (some 0) mainHeap) :=
  ⟨second_authenticate_rejected.1 _ 0 "51253524113" "1234" rfl rfl,
   second_authenticate_rejected.2 _ _ "81975433120" "2311" "81975433120" "2311"
     authenticate_main⟩

/-- C12: authentication during a transaction.  In `WithdrawState`, `Authenticate`
with any number and pin returns "can't authenticate during a transaction" and
leaves the whole session (state, active account, cash, map, accounts) as it
was. -/
theorem authenticate_during_transaction (s : Session) (num pin : String)
    (hst : s.atm.CurrentState = ATMState.WithdrawState) :
    ∃ s', ATMContext.Authenticate s num pin =
        some (some "can't authenticate during a transaction", s') ∧
      s'.atm.CurrentState = s.atm.CurrentState ∧
      s'.atm.ActiveAccount = s.atm.ActiveAccount ∧
      s'.atm.AvailableCash = s.atm.AvailableCash ∧
      s'.atm.Accounts = s.atm.Accounts ∧ s'.heap = s.heap ∧ s' = s :=
  ⟨s, authenticate_of_withdrawState s num pin hst, rfl, rfl, rfl, rfl, rfl, rfl⟩

/-- Witness of C12: the session of `main` after the withdrawal of 15000. -/
theorem authenticate_during_transaction_witness :
    ∃ s', ATMContext.Authenticate
        (mainSession ATMState.WithdrawState 35000 (some 0) (debit mainHeap 0 15000))
        "51253524113" "1234" =
        some (some "can't authenticate during a transaction", s') ∧
      s'.atm.CurrentState = ATMState.WithdrawState ∧
      s'.atm.ActiveAccount = some 0 ∧
      s'.atm.AvailableCash = 35000 ∧
      s'.atm.Accounts = mainAccounts ∧ s'.heap = debit mainHeap 0 15000 ∧
      s' = mainSession ATMState.WithdrawState 35000 (some 0) (debit mainHeap 0 15000) :=
  authenticate_during_transaction
    (mainSession ATMState.WithdrawState 35000 (some 0) (debit mainHeap 0 15000))
    "51253524113" "1234" rfl

/-- C13 as stated fails: on the session of `main` in `WithdrawState`,
`Authenticate` returns "can't authenticate during a transaction", which is not
the error "already authenticated". -/
theorem withdrawState_authenticate_not_already :
    (mainSession ATMState.WithdrawState 50000 (some 0) mainHeap).atm.CurrentState =
        ATMState.WithdrawState ∧
      returnedError (ATMContext.Authenticate
          (mainSession ATMState.WithdrawState 50000 (some 0) mainHeap)
          "81975433120" "2311") =
        some (some "can't authenticate during a transaction") ∧
      returnedError (ATMContext.Authenticate
          (mainSession ATMState.WithdrawState 50000 (some 0) mainHeap)
          "81975433120" "2311") ≠
        some (some "already authenticated") := by
  rw [authenticate_of_withdrawState _ _ _ rfl]
  refine ⟨rfl, rfl, ?_⟩
  simp [returnedError]

/-- C13 amended: `Authenticate` with any number and pin returns "already
authenticated" in `AuthenticatedState` and "can't authenticate during a
transaction" in `WithdrawState`. -/
theorem authenticate_after_authentication :
    (∀ (s : Session) (num pin : String),
      s.atm.CurrentState = ATMState.AuthenticatedState →
        returnedError (ATMContext.Authenticate s num pin) =
          some (some "already authenticated")) ∧
    (∀ (s : Session) (num pin : String),
      s.atm.CurrentState = ATMState.WithdrawState →
        returnedError (ATMContext.Authenticate s num pin) =
          some (some "can't authenticate during a transaction")) := by
  constructor
  · intro s num pin hst
    rw [authenticate_of_authenticated s num pin hst]
    rfl
  · intro s num pin hst
    rw [authenticate_of_withdrawState s num pin hst]
    rfl

/-- Witness of C13 amended on the session of `main` in the two states. -/
theorem authenticate_after_authentication_witness :
    returnedError (ATMContext.Authenticate
        (mainSession ATMState.AuthenticatedState 50000 (some 0) mainHeap)
        "81975433120" "2311") = some (some "already authenticated") ∧
    returnedError (ATMContext.Authenticate
        (mainSession ATMState.WithdrawState 50000 (some 0) mainHeap)
        "81975433120" "2311") = some (some "can't authenticate during a transaction") :=
  ⟨authenticate_after_authentication.1 _ "81975433120" "2311" rfl,
   authenticate_after_authentication.2 _ "81975433120" "2311" rfl⟩

/-- C14: withdrawal before authentication.  In `IdleState`, `WithdrawMoney` with
any amount, positive, zero or negative, returns "please authenticate first" and
leaves the whole session (state, active account, cash, map, accounts) as it
was. -/
theorem withdraw_before_authentication (s : Session) (amnt : ℚ)
    (hst : s.atm.CurrentState = ATMState.IdleState) :
    ∃ s', ATMContext.WithdrawMoney s amnt = some (some "please authenticate first", s') ∧
      s'.atm.CurrentState = ATMState.IdleState ∧
      s'.atm.ActiveAccount = s.atm.ActiveAccount ∧
      s'.atm.AvailableCash = s.atm.AvailableCash ∧
      s'.atm.Accounts = s.atm.Accounts ∧ s'.heap = s.heap ∧ s' = s :=
  ⟨s, withdrawMoney_of_idle s amnt hst, hst, rfl, rfl, rfl, rfl, rfl⟩

/-- Witness of C14: a negative amount on the fresh session of `main`, whose
`ActiveAccount` is unset. -/
theorem withdraw_before_authentication_witness :
    ∃ s', ATMContext.WithdrawMoney (mainSession ATMState.IdleState 50000 none mainHeap) (-5) =
        some (some "please authenticate first", s') ∧
      s'.atm.CurrentState = ATMState.IdleState ∧
      s'.atm.ActiveAccount = none ∧
      s'.atm.AvailableCash = 50000 ∧
      s'.atm.Accounts = mainAccounts ∧ s'.heap = mainHeap ∧
      s' = mainSession ATMState.IdleState 50000 none mainHeap :=
  withdraw_before_authentication (mainSession ATMState.IdleState 50000 none mainHeap) (-5) rfl

/-! ## Amounts that are not positive -/

theorem debit_zero (heap : Nat → Account) (a : Nat) : debit heap a 0 = heap := by
  funext b
  unfold debit
  split
  · rename_i h
    subst h
    simp
  · rfl

/-- C15: non-positive amounts are not rejected.  In `AuthenticatedState` or
`WithdrawState` with an active account `a`, `AvailableCash ≥ 0` and the balance of
`a` `≥ 0`: `WithdrawMoney 0` returns `nil` and leaves `AvailableCash` and every
account unchanged; `WithdrawMoney amount` with `amount < 0` returns `nil` and
raises `AvailableCash` and the balance of `a` by exactly `-amount`, every other
account being unchanged. -/
theorem nonpositive_amount_accepted :
    (∀ (s : Session) (a : Nat),
      (s.atm.CurrentState = ATMState.AuthenticatedState ∨
        s.atm.CurrentState = ATMState.WithdrawState) →
      s.atm.ActiveAccount = some a →
      0 ≤ s.atm.AvailableCash → 0 ≤ (s.heap a).Balance →
        ∃ s', ATMContext.WithdrawMoney s 0 = some (none, s') ∧
          s'.atm.AvailableCash = s.atm.AvailableCash ∧ s'.heap = s.heap) ∧
    (∀ (s : Session) (a : Nat) (amount : ℚ),
      (s.atm.CurrentState = ATMState.AuthenticatedState ∨
        s.atm.CurrentState = ATMState.WithdrawState) →
      s.atm.ActiveAccount = some a →
      0 ≤ s.atm.AvailableCash → 0 ≤ (s.heap a).Balance → amount < 0 →
        ∃ s', ATMContext.WithdrawMoney s amount = some (none, s') ∧
          s'.atm.AvailableCash = s.atm.AvailableCash + -amount ∧
          (s'.heap a).Balance = (s.heap a).Balance + -amount ∧
          ∀ b, b ≠ a → s'.heap b = s.heap b) := by
  constructor
  · intro s a hst ha hcash hbal
    rcases withdrawMoney_cases s 0 a hst ha with ⟨h0, _⟩ | ⟨_, h0, _⟩ | ⟨_, _, h1⟩
    · exact absurd h0 (not_lt.mpr hcash)
    · exact absurd h0 (not_lt.mpr hbal)
    · exact ⟨_, h1, by simp, debit_zero s.heap a⟩
  · intro s a amount hst ha hcash hbal hneg
    rcases withdrawMoney_cases s amount a hst ha with ⟨h0, _⟩ | ⟨_, h0, _⟩ | ⟨_, _, h1⟩
    · exact absurd (lt_of_le_of_lt hcash h0) (not_lt.mpr hneg.le)
    · exact absurd (lt_of_le_of_lt hbal h0) (not_lt.mpr hneg.le)
    · refine ⟨_, h1, by simp [sub_eq_add_neg], by simp [debit, sub_eq_add_neg], ?_⟩
      intro b hb
      simp [debit, hb]

/-- Witness of C15: the amounts 0 and -250 on the authenticated session of `main`. -/
theorem nonpositive_amount_accepted_witness :
    (∃ s', ATMContext.WithdrawMoney
        (mainSession ATMState.AuthenticatedState 50000 (some 0) mainHeap) 0 = some (none, s') ∧
      s'.atm.AvailableCash =
        (mainSession ATMState.AuthenticatedState 50000 (some 0) mainHeap).atm.AvailableCash ∧
      s'.heap = (mainSession ATMState.AuthenticatedState 50000 (some 0) mainHeap).heap) ∧
    (∃ s', ATMContext.WithdrawMoney
        (mainSession ATMState.AuthenticatedState 50000 (some 0) mainHeap) (-250) =
          some (none, s') ∧
      s'.atm.AvailableCash =
        (mainSession ATMState.AuthenticatedState 50000 (some 0) mainHeap).atm.AvailableCash
          + -(-250) ∧
      (s'.heap 0).Balance =
        ((mainSession ATMState.AuthenticatedState 50000 (some 0) mainHeap).heap 0).Balance
          + -(-250) ∧
      ∀ b, b ≠ 0 → s'.heap b =
        (mainSession ATMState.AuthenticatedState 50000 (some 0) mainHeap).heap b) :=
  ⟨nonpositive_amount_accepted.1 _ 0 (Or.inl rfl) rfl (by simp [mainSession])
      (by simp [mainSession, mainHeap]),
   nonpositive_amount_accepted.2 _ 0 (-250) (Or.inl rfl) rfl (by simp [mainSession])
      (by simp [mainSession, mainHeap]) (by norm_num)⟩

/-! ## Construction -/

theorem fillAccountMap_returns (heap : Nat → Account) (accounts : List AccountPtr) :
    ∀ m : String → Option AccountPtr, (∀ p, p ∈ accounts → p ≠ none) →
      ∃ m', fillAccountMap heap m accounts = some m' := by
  induction accounts with
  | nil => exact fun m _ => ⟨m, rfl⟩
  | cons hd tl ih =>
      intro m hnn
      cases hd with
      | none => exact absurd rfl (hnn none (List.mem_cons_self _ _))
      | some b =>
          simp only [fillAccountMap]
          exact ih _ (fun p hp => hnn p (List.mem_cons_of_mem _ hp))

theorem fillAccountMap_panics (heap : Nat → Account) (accounts : List AccountPtr) :
    ∀ m : String → Option AccountPtr, none ∈ accounts →
      fillAccountMap heap m accounts = none := by
  induction accounts with
  | nil =>
      intro m h
      simp at h
  | cons hd tl ih =>
      intro m h
      cases hd with
      | none => rfl
      | some b =>
          simp only [fillAccountMap]
          refine ih _ ?_
          rcases List.mem_cons.mp h with h1 | h1
          · cases h1
          · exact h1

theorem newATMContext_returns (heap : Nat → Account) (initialCash : ℚ)
    (accounts : List AccountPtr) (hnn : ∀ p, p ∈ accounts → p ≠ none) :
    ∃ s0, NewATMContext heap initialCash accounts = some s0 := by
  obtain ⟨m, hm⟩ := fillAccountMap_returns heap accounts (fun _ => none) hnn
  refine ⟨⟨⟨ATMState.IdleState, m, initialCash, none⟩, heap⟩, ?_⟩
  simp only [NewATMContext, hm]
  rfl

/-- C16 as stated fails: the list made of the first account of `main` and a nil
entry has pairwise distinct account numbers, yet `NewATMContext` returns no
session on it: reading `acnt.AccountNumber` of the nil entry panics. -/
theorem newATMContext_panics_on_nil_entry :
    DistinctNumbers mainHeap [some 0, none] ∧
      NewATMContext mainHeap 50000 [some 0, none] = none := by
  constructor
  · simp [DistinctNumbers]
  · rfl

/-- C16 amended: construction.  For every initial cash and every list of accounts
without nil entry and with pairwise distinct numbers, `NewATMContext` returns a
session in `IdleState` with `ActiveAccount` unset, `AvailableCash = initialCash`,
the accounts as given, and a map whose keys are exactly the numbers of the listed
accounts and which holds each listed account under its number.  On a list with a
nil entry the constructor panics. -/
theorem newATMContext_spec :
    (∀ (heap : Nat → Account) (initialCash : ℚ) (accounts : List AccountPtr),
      (∀ p, p ∈ accounts → p ≠ none) → DistinctNumbers heap accounts →
        ∃ s0, NewATMContext heap initialCash accounts = some s0 ∧
          s0.atm.CurrentState = ATMState.IdleState ∧
          s0.atm.ActiveAccount = none ∧
          s0.atm.AvailableCash = initialCash ∧
          s0.heap = heap ∧
          (∀ k, s0.atm.Accounts k ≠ none ↔
            ∃ a, some a ∈ accounts ∧ (heap a).AccountNumber = k) ∧
          (∀ a, some a ∈ accounts →
            s0.atm.Accounts (heap a).AccountNumber = some (some a)) ∧
          (∀ k p, s0.atm.Accounts k = some p →
            ∃ a, p = some a ∧ some a ∈ accounts ∧ (heap a).AccountNumber = k)) ∧
    (∀ (heap : Nat → Account) (initialCash : ℚ) (accounts : List AccountPtr),
      none ∈ accounts → NewATMContext heap initialCash accounts = none) := by
  constructor
  · intro heap initialCash accounts hnn hdist
    obtain ⟨s0, hnew⟩ := newATMContext_returns heap initialCash accounts hnn
    obtain ⟨m, hm, rfl⟩ := newATMContext_inv heap initialCash accounts s0 hnew
    have hentry : ∀ k p, m k = some p →
        ∃ a, p = some a ∧ some a ∈ accounts ∧ (heap a).AccountNumber = k := by
      intro k p hk
      rcases fillAccountMap_entry heap accounts _ m hm k p hk with h1 | h1
      · simp at h1
      · exact h1
    have hlisted : ∀ a, some a ∈ accounts → m (heap a).AccountNumber = some (some a) :=
      fun a ha => fillAccountMap_distinct heap accounts a _ m hm hdist ha
    refine ⟨_, hnew, rfl, rfl, rfl, rfl, ?_, hlisted, hentry⟩
    intro k
    constructor
    · intro hk
      obtain ⟨p, hp⟩ := Option.ne_none_iff_exists'.mp hk
      obtain ⟨a, _, ha, hn⟩ := hentry k p hp
      exact ⟨a, ha, hn⟩
    · rintro ⟨a, ha, rfl⟩
      show m (heap a).AccountNumber ≠ none
      rw [hlisted a ha]
      simp
  · intro heap initialCash accounts hnil
    simp only [NewATMContext, fillAccountMap_panics heap accounts _ hnil]

/-- Witness of C16 amended: the account list of `main`. -/
theorem newATMContext_spec_witness :
    ∃ s0, NewATMContext mainHeap 50000 accountsList = some s0 ∧
      s0.atm.CurrentState = ATMState.IdleState ∧
      s0.atm.ActiveAccount = none ∧
      s0.atm.AvailableCash = 50000 ∧
      s0.heap = mainHeap ∧
      (∀ k, s0.atm.Accounts k ≠ none ↔
        ∃ a, some a ∈ accountsList ∧ (mainHeap a).AccountNumber = k) ∧
      (∀ a, some a ∈ accountsList →
        s0.atm.Accounts (mainHeap a).AccountNumber = some (some a)) ∧
      (∀ k p, s0.atm.Accounts k = some p →
        ∃ a, p = some a ∧ some a ∈ accountsList ∧ (mainHeap a).AccountNumber = k) :=
  newATMContext_spec.1 mainHeap 50000 accountsList (by simp [accountsList])
    accountsList_distinct

/-! ## Two-phase withdrawal -/

/-- C17: the two-phase withdrawal equals the one-phase withdrawal.  In
`AuthenticatedState` the public `WithdrawMoney`, and the `AuthenticatedState`
method it dispatches to, yield the same outcome (same error or `nil`, same final
session, or the same panic) as setting the state to `WithdrawState` and running
the `WithdrawState` method, and as the public `WithdrawMoney` on the session with
`WithdrawState` installed. -/
theorem two_phase_withdraw_eq (s : Session) (amount : ℚ)
    (hst : s.atm.CurrentState = ATMState.AuthenticatedState) :
    ATMContext.WithdrawMoney s amount = setStateThenWithdraw s amount ∧
    AuthenticatedState.WithdrawMoney s amount = setStateThenWithdraw s amount ∧
    ATMContext.WithdrawMoney s amount =
      ATMContext.WithdrawMoney { s with atm := s.atm.setState ATMState.WithdrawState }
        amount := by
  refine ⟨dispatch_authenticated s amount hst, authenticated_withdraw_eq s amount, ?_⟩
  rw [withdrawMoney_of_not_idle s amount (Or.inl hst)]
  exact (dispatch_withdraw _ amount rfl).symm

/-- Witness of C17: the authenticated session of `main` and the amount 15000. -/
theorem two_phase_withdraw_eq_witness :
    ATMContext.WithdrawMoney
        (mainSession ATMState.AuthenticatedState 50000 (some 0) mainHeap) 15000 =
      setStateThenWithdraw
        (mainSession ATMState.AuthenticatedState 50000 (some 0) mainHeap) 15000 ∧
    setStateThenWithdraw
        (mainSession ATMState.AuthenticatedState 50000 (some 0) mainHeap) 15000 =
      some (none, mainSession ATMState.WithdrawState 35000 (some 0) (debit mainHeap 0 15000)) :=
  ⟨(two_phase_withdraw_eq _ 15000 rfl).1,
   (two_phase_withdraw_eq _ 15000 rfl).1.symm.trans withdraw_main_15000⟩

/-! ## Duplicate account numbers -/

/-- The last listed account of a number is the map entry of that number. -/
theorem fillAccountMap_last (heap : Nat → Account) (before after : List AccountPtr) (b : Nat)
    (hlast : ∀ c, some c ∈ after → (heap c).AccountNumber ≠ (heap b).AccountNumber) :
    ∀ (m m' : String → Option AccountPtr),
      fillAccountMap heap m (before ++ some b :: after) = some m' →
        m' (heap b).AccountNumber = some (some b) := by
  induction before with
  | nil =>
      intro m m' h
      simp only [List.nil_append, fillAccountMap] at h
      rw [fillAccountMap_other heap after _ _ m' h hlast]
      simp [mapInsert]
  | cons hd tl ih =>
      intro m m' h
      cases hd with
      | none => simp [fillAccountMap] at h
      | some c =>
          simp only [List.cons_append, fillAccountMap] at h
          exact ih _ m' h

/-- C18: duplicate account numbers, the last entry wins.  When the list holds an
account `a` and, later, an account `b` of the same number, with no entry of that
number after `b`, the session built by `NewATMContext` stores `b` under the
number: `Authenticate` with the number and the pin of `b` returns `nil` and makes
`b` active, and when the pins differ `Authenticate` with the number and pin of `a`
returns "PIN is not matching" although `a` is listed. -/
theorem duplicate_number_last_wins (heap : Nat → Account) (initialCash : ℚ)
    (before after : List AccountPtr) (a b : Nat) (s0 : Session)
    (ha : some a ∈ before)
    (hsame : (heap a).AccountNumber = (heap b).AccountNumber)
    (hlast : ∀ c, some c ∈ after → (heap c).AccountNumber ≠ (heap b).AccountNumber)
    (hnew : NewATMContext heap initialCash (before ++ some b :: after) = some s0) :
    some a ∈ before ++ some b :: after ∧
    s0.atm.Accounts (heap b).AccountNumber = some (some b) ∧
    (∃ s1, ATMContext.Authenticate s0 (heap b).AccountNumber (heap b).Pin = some (none, s1) ∧
      s1.atm.CurrentState = ATMState.AuthenticatedState ∧
      s1.atm.ActiveAccount = some b) ∧
    ((heap a).Pin ≠ (heap b).Pin →
      ATMContext.Authenticate s0 (heap a).AccountNumber (heap a).Pin =
        some (some "PIN is not matching", s0)) := by
  obtain ⟨m, hm, rfl⟩ := newATMContext_inv heap initialCash _ s0 hnew
  have hk := fillAccountMap_last heap before after b hlast _ m hm
  refine ⟨List.mem_append_left _ ha, hk, ?_, ?_⟩
  · refine ⟨⟨⟨ATMState.AuthenticatedState, m, initialCash, some b⟩, heap⟩, ?_, rfl, rfl⟩
    simp [ATMContext.Authenticate, ATMState.Authenticate, IdleState.Authenticate, hk,
      ATMContext.setState]
  · intro hpin
    rw [hsame]
    simp [ATMContext.Authenticate, ATMState.Authenticate, IdleState.Authenticate, hk,
      Ne.symm hpin]

/-- Witness of C18: the two accounts of number 70000000001 of `twinHeap`, followed
by an account of another number. -/
theorem duplicate_number_last_wins_witness :
    some 0 ∈ [some 0] ++ some 1 :: [some 2] ∧
    mapInsert (mapInsert (mapInsert (fun _ => none) "70000000001" (some 0))
        "70000000001" (some 1)) "70000000002" (some 2) (twinHeap 1).AccountNumber =
      some (some 1) ∧
    (∃ s1, ATMContext.Authenticate
        { atm := { CurrentState := ATMState.IdleState,
                   Accounts := mapInsert (mapInsert (mapInsert (fun _ => none)
                     "70000000001" (some 0)) "70000000001" (some 1)) "70000000002" (some 2),
                   AvailableCash := 1000, ActiveAccount := none },
          heap := twinHeap }
        (twinHeap 1).AccountNumber (twinHeap 1).Pin = some (none, s1) ∧
      s1.atm.CurrentState = ATMState.AuthenticatedState ∧
      s1.atm.ActiveAccount = some 1) ∧
    ((twinHeap 0).Pin ≠ (twinHeap 1).Pin →
      ATMContext.Authenticate
        { atm := { CurrentState := ATMState.IdleState,
                   Accounts := mapInsert (mapInsert (mapInsert (fun _ => none)
                     "70000000001" (some 0)) "70000000001" (some 1)) "70000000002" (some 2),
                   AvailableCash := 1000, ActiveAccount := none },
          heap := twinHeap }
        (twinHeap 0).AccountNumber (twinHeap 0).Pin =
        some (some "PIN is not matching",
          { atm := { CurrentState := ATMState.IdleState,
                     Accounts := mapInsert (mapInsert (mapInsert (fun _ => none)
                       "70000000001" (some 0)) "70000000001" (some 1)) "70000000002" (some 2),
                     AvailableCash := 1000, ActiveAccount := none },
            heap := twinHeap })) :=
  duplicate_number_last_wins twinHeap 1000 [some 0] [some 2] 0 1 _
    (by simp) rfl (by simp [twinHeap]) rfl

/-! ## Machine cash and account money -/

/-- Listed accounts of pairwise distinct numbers are pairwise distinct objects. -/
theorem distinct_pointers (heap : Nat → Account) (accounts : List AccountPtr)
    (hdist : DistinctNumbers heap accounts) :
    accounts.Pairwise fun p q => ∀ x, p = some x → q ≠ some x := by
  unfold DistinctNumbers at hdist
  refine hdist.imp ?_
  intro p q hpq x hp hq
  exact hpq x x hp hq rfl

theorem totalBalance_debit_other (heap : Nat → Account) (a : Nat) (amount : ℚ) :
    ∀ accounts : List AccountPtr, some a ∉ accounts →
      totalBalance (debit heap a amount) accounts = totalBalance heap accounts := by
  intro accounts
  induction accounts with
  | nil => exact fun _ => rfl
  | cons hd tl ih =>
      intro hno
      have htl : some a ∉ tl := fun h => hno (List.mem_cons_of_mem _ h)
      cases hd with
      | none =>
          simp only [totalBalance]
          exact ih htl
      | some b =>
          have hb : b ≠ a := fun e => hno (by rw [e]; exact List.mem_cons_self _ _)
          simp only [totalBalance, ih htl]
          simp [debit, hb]

theorem totalBalance_debit (heap : Nat → Account) (a : Nat) (amount : ℚ) :
    ∀ accounts : List AccountPtr,
      (accounts.Pairwise fun p q => ∀ x, p = some x → q ≠ some x) → some a ∈ accounts →
        totalBalance (debit heap a amount) accounts = totalBalance heap accounts - amount := by
  intro accounts
  induction accounts with
  | nil =>
      intro _ h
      simp at h
  | cons hd tl ih =>
      intro hp hmem
      rw [List.pairwise_cons] at hp
      by_cases hhd : hd = some a
      · subst hhd
        have hno : some a ∉ tl := fun h => hp.1 (some a) h a rfl rfl
        simp only [totalBalance, totalBalance_debit_other heap a amount tl hno]
        simp only [debit, if_true]
        ring
      · have htl : some a ∈ tl := by
          rcases List.mem_cons.mp hmem with h1 | h1
          · exact absurd h1.symm hhd
          · exact h1
        cases hd with
        | none =>
            simp only [totalBalance]
            exact ih hp.2 htl
        | some b =>
            have hb : b ≠ a := fun e => hhd (by rw [e])
            simp only [totalBalance, ih hp.2 htl]
            simp only [debit, if_neg hb]
            ring

/-- One call on a consistent session: it returns, and machine cash and the total
of the listed balances both drop by the amount the call took out. -/
theorem run_money (accounts : List AccountPtr) (s : Session) (c : Call)
    (hp : accounts.Pairwise fun p q => ∀ x, p = some x → q ≠ some x)
    (hc : Consistent accounts s) :
    ∃ e s', c.run s = some (e, s') ∧ Consistent accounts s' ∧
      s.atm.AvailableCash - s'.atm.AvailableCash = withdrawnBy c e ∧
      totalBalance s.heap accounts - totalBalance s'.heap accounts = withdrawnBy c e := by
  obtain ⟨e, s', h, hc', _⟩ := run_consistent accounts s c hc
  refine ⟨e, s', h, hc', ?_⟩
  cases c with
  | Authenticate num pin =>
      obtain ⟨e1, s1, h1, _, hh, hcash⟩ := authenticate_consistent accounts s num pin hc
      simp only [Call.run] at h
      rw [h1] at h
      simp only [Option.some.injEq, Prod.mk.injEq] at h
      obtain ⟨rfl, rfl⟩ := h
      simp [withdrawnBy, hh, hcash]
  | WithdrawMoney amnt =>
      simp only [Call.run] at h
      cases hst : s.atm.CurrentState with
      | IdleState =>
          rw [withdrawMoney_of_idle s amnt hst] at h
          simp only [Option.some.injEq, Prod.mk.injEq] at h
          obtain ⟨rfl, rfl⟩ := h
          simp [withdrawnBy]
      | AuthenticatedState | WithdrawState =>
          have hne : s.atm.ActiveAccount ≠ none := by
            intro h0
            have := hc.2.2.mp h0
            rw [hst] at this
            cases this
          obtain ⟨a, ha⟩ := Option.ne_none_iff_exists'.mp hne
          have hmem : some a ∈ accounts := by
            obtain ⟨a', ha', hm, _⟩ := hc.1 _ _ (hc.2.1 a ha)
            rw [ha']
            exact hm
          rcases withdrawMoney_cases s amnt a (by simp [hst]) ha with
            ⟨_, h1⟩ | ⟨_, _, h1⟩ | ⟨_, _, h1⟩
          · rw [h1] at h
            simp only [Option.some.injEq, Prod.mk.injEq] at h
            obtain ⟨rfl, rfl⟩ := h
            simp [withdrawnBy, ATMContext.setState]
          · rw [h1] at h
            simp only [Option.some.injEq, Prod.mk.injEq] at h
            obtain ⟨rfl, rfl⟩ := h
            simp [withdrawnBy, ATMContext.setState]
          · rw [h1] at h
            simp only [Option.some.injEq, Prod.mk.injEq] at h
            obtain ⟨rfl, rfl⟩ := h
            simp only [withdrawnBy, totalBalance_debit s.heap a amnt accounts hp hmem]
            constructor <;> ring

theorem runCalls_money (accounts : List AccountPtr)
    (hp : accounts.Pairwise fun p q => ∀ x, p = some x → q ≠ some x) (calls : List Call) :
    ∀ s : Session, Consistent accounts s →
      ∃ s', runCalls s calls = some s' ∧
        s.atm.AvailableCash - s'.atm.AvailableCash = withdrawnTotal s calls ∧
        totalBalance s.heap accounts - totalBalance s'.heap accounts =
          withdrawnTotal s calls := by
  induction calls with
  | nil =>
      intro s _
      exact ⟨s, rfl, by simp [withdrawnTotal], by simp [withdrawnTotal]⟩
  | cons c cs ih =>
      intro s hc
      obtain ⟨e, s1, h1, hc1, hcash1, hbal1⟩ := run_money accounts s c hp hc
      obtain ⟨s', h2, hcash2, hbal2⟩ := ih s1 hc1
      refine ⟨s', by simp only [runCalls, h1]; exact h2, ?_, ?_⟩
      · simp only [withdrawnTotal, h1]
        rw [← hcash1, ← hcash2]
        ring
      · simp only [withdrawnTotal, h1]
        rw [← hbal1, ← hbal2]
        ring

/-- C19: machine cash and account money move together.  On a session built by
`NewATMContext` from a list with pairwise distinct numbers, every finite sequence
of calls runs to its end, and `initialCash` minus the final `AvailableCash` equals
the sum of the initial balances of the listed accounts minus the sum of their
final balances, and both equal the sum of the amounts of the `WithdrawMoney` calls
of the sequence that returned `nil`. -/
theorem cash_and_balances_move_together (heap : Nat → Account) (initialCash : ℚ)
    (accounts : List AccountPtr) (s0 : Session) (calls : List Call)
    (hdist : DistinctNumbers heap accounts)
    (hnew : NewATMContext heap initialCash accounts = some s0) :
    ∃ s, runCalls s0 calls = some s ∧
      initialCash - s.atm.AvailableCash =
        totalBalance heap accounts - totalBalance s.heap accounts ∧
      initialCash - s.atm.AvailableCash = withdrawnTotal s0 calls := by
  obtain ⟨hc, hh, hk⟩ := newATMContext_consistent heap initialCash accounts s0 hnew
  obtain ⟨s, hrun, hcash, hbal⟩ :=
    runCalls_money accounts (distinct_pointers heap accounts hdist) calls s0 hc
  rw [hh] at hbal
  rw [hk] at hcash
  exact ⟨s, hrun, by rw [hcash, hbal], hcash⟩

/-- Witness of C19: the session of `main` under a successful authentication, a
withdrawal of 15000, a refused withdrawal of 60000 and a withdrawal of 5000. -/
theorem cash_and_balances_move_together_witness :
    ∃ s, runCalls (mainSession ATMState.IdleState 50000 none mainHeap)
        [Call.Authenticate "81975433120" "2311", Call.WithdrawMoney 15000,
          Call.WithdrawMoney 60000, Call.WithdrawMoney 5000] = some s ∧
      50000 - s.atm.AvailableCash =
        totalBalance mainHeap accountsList - totalBalance s.heap accountsList ∧
      50000 - s.atm.AvailableCash =
        withdrawnTotal (mainSession ATMState.IdleState 50000 none mainHeap)
          [Call.Authenticate "81975433120" "2311", Call.WithdrawMoney 15000,
            Call.WithdrawMoney 60000, Call.WithdrawMoney 5000] :=
  cash_and_balances_move_together mainHeap 50000 accountsList _ _ accountsList_distinct
    newATMContext_main

/-! ## Nil safety -/

/-- C20: no nil active account is ever dereferenced.  From a list without nil
entry `NewATMContext` returns a session, every finite sequence of calls on it runs
to its end, and in the session it leaves, whenever a `WithdrawMoney` call would
run the `WithdrawState` method (state `AuthenticatedState` or `WithdrawState`),
`ActiveAccount` is set, is a listed account and is the map entry of its own
number; the method then returns without panic, and a debit lands on that
account. -/
theorem active_account_never_nil (heap : Nat → Account) (initialCash : ℚ)
    (accounts : List AccountPtr) (hnn : ∀ p, p ∈ accounts → p ≠ none) :
    ∃ s0, NewATMContext heap initialCash accounts = some s0 ∧
      ∀ calls : List Call, ∃ s, runCalls s0 calls = some s ∧
        ((s.atm.CurrentState = ATMState.AuthenticatedState ∨
            s.atm.CurrentState = ATMState.WithdrawState) →
          ∃ a, s.atm.ActiveAccount = some a ∧
            s.atm.Accounts (s.heap a).AccountNumber = some (some a) ∧
            some a ∈ accounts ∧
            ∀ amnt : ℚ, ∃ e s',
              WithdrawState.WithdrawMoney
                { s with atm := s.atm.setState ATMState.WithdrawState } amnt = some (e, s') ∧
              ATMContext.WithdrawMoney s amnt = some (e, s') ∧
              (e = none → s'.heap = debit s.heap a amnt)) := by
  obtain ⟨s0, hnew⟩ := newATMContext_returns heap initialCash accounts hnn
  refine ⟨s0, hnew, ?_⟩
  intro calls
  obtain ⟨hc0, _, _⟩ := newATMContext_consistent heap initialCash accounts s0 hnew
  obtain ⟨s, hrun, hc, _⟩ := runCalls_consistent accounts calls s0 hc0
  refine ⟨s, hrun, ?_⟩
  intro hst
  have hne : s.atm.ActiveAccount ≠ none := by
    intro h0
    have := hc.2.2.mp h0
    rcases hst with h | h <;> rw [h] at this <;> cases this
  obtain ⟨a, ha⟩ := Option.ne_none_iff_exists'.mp hne
  have hkey := hc.2.1 a ha
  have hmem : some a ∈ accounts := by
    obtain ⟨a', ha', hm, _⟩ := hc.1 _ _ hkey
    rw [ha']
    exact hm
  refine ⟨a, ha, hkey, hmem, ?_⟩
  intro amnt
  have hpub := withdrawMoney_of_not_idle s amnt hst
  rcases withdrawMoney_cases s amnt a hst ha with ⟨_, h1⟩ | ⟨_, _, h1⟩ | ⟨_, _, h1⟩
  · exact ⟨_, _, hpub ▸ h1, h1, by simp⟩
  · exact ⟨_, _, hpub ▸ h1, h1, by simp⟩
  · exact ⟨_, _, hpub ▸ h1, h1, fun _ => rfl⟩

/-- Witness of C20: the account list of `main`. -/
theorem active_account_never_nil_witness :
    ∃ s0, NewATMContext mainHeap 50000 accountsList = some s0 ∧
      ∀ calls : List Call, ∃ s, runCalls s0 calls = some s ∧
        ((s.atm.CurrentState = ATMState.AuthenticatedState ∨
            s.atm.CurrentState = ATMState.WithdrawState) →
          ∃ a, s.atm.ActiveAccount = some a ∧
            s.atm.Accounts (s.heap a).AccountNumber = some (some a) ∧
            some a ∈ accountsList ∧
            ∀ amnt : ℚ, ∃ e s',
              WithdrawState.WithdrawMoney
                { s with atm := s.atm.setState ATMState.WithdrawState } amnt = some (e, s') ∧
              ATMContext.WithdrawMoney s amnt = some (e, s') ∧
              (e = none → s'.heap = debit s.heap a amnt)) :=
  active_account_never_nil mainHeap 50000 accountsList (by simp [accountsList])

end ATM
